import Mathlib

/-!
Verification development for the technical-indicator / signal-consolidation
engine of this repository (`technical_indicators.py`, `crypto_analysis.py`).

Modelling conventions (shallow embedding):
* A pandas column is a `List (Option ℚ)`: `none` models a NaN cell (warm-up /
  undefined), `some x` a defined float value.  The raw `close`/`volume`
  columns never hold NaN and are modelled as `List ℚ`.
* Every float comparison in the source is NaN-aware: in pandas/numpy a
  comparison with NaN yields `False`.  The `cGT`/`cLT`/`cLE`/`cGE` helpers
  below implement that.
* Positional access `s.iloc[-k]` raises `IndexError` when `k` exceeds the
  length; fallible access is modelled in the `Except String` monad.
* Python `and` short-circuits; accesses that the source only performs when an
  earlier conjunct is true are likewise only performed conditionally here.
* Exact rational arithmetic stands in for IEEE doubles.  The two places where
  IEEE behaviour is not plain field arithmetic are modelled explicitly: the
  RSI zero-denominator cases (`rsiValQ`) and the Bollinger rolling standard
  deviation (an irrational square root, modelled over `ℝ` in the `bb*At`
  definitions and abstracted as a column parameter in the executable
  pipeline, whose branch structure never depends on its values).
-/

attribute [local semireducible] Rat.add Rat.mul Rat.sub Rat.inv Rat.ofScientific

/-- NaN-aware strict greater-than on float cells: any comparison involving
NaN is `False` in pandas. Models `a > b` on cell values. -/
def cGT (a b : Option ℚ) : Bool :=
  match a, b with
  | some x, some y => decide (y < x)
  | _, _ => false

/-- NaN-aware strict less-than, models `a < b`. -/
def cLT (a b : Option ℚ) : Bool :=
  match a, b with
  | some x, some y => decide (x < y)
  | _, _ => false

/-- NaN-aware `a <= b`. -/
def cLE (a b : Option ℚ) : Bool :=
  match a, b with
  | some x, some y => decide (x ≤ y)
  | _, _ => false

/-- NaN-aware `a >= b`. -/
def cGE (a b : Option ℚ) : Bool :=
  match a, b with
  | some x, some y => decide (y ≤ x)
  | _, _ => false

/-- Multiply a float cell by a constant (`NaN * c = NaN`). -/
def scaleCell (a : Option ℚ) (c : ℚ) : Option ℚ :=
  a.map (fun x => x * c)

/-- Decidable equality of `Except` values, used to evaluate the model on
concrete inputs. -/
instance {ε α : Type} [DecidableEq ε] [DecidableEq α] : DecidableEq (Except ε α) :=
  fun a b =>
    match a, b with
    | .error e, .error f =>
      if h : e = f then isTrue (by rw [h]) else isFalse (fun c => h (Except.error.inj c))
    | .error _, .ok _ => isFalse (fun c => Except.noConfusion c)
    | .ok _, .error _ => isFalse (fun c => Except.noConfusion c)
    | .ok x, .ok y =>
      if h : x = y then isTrue (by rw [h]) else isFalse (fun c => h (Except.ok.inj c))

@[simp] theorem exceptBind_ok {ε α β : Type} (a : α) (f : α → Except ε β) :
    (Except.ok a : Except ε α) >>= f = f a := rfl

@[simp] theorem exceptBind_err {ε α β : Type} (e : ε) (f : α → Except ε β) :
    (Except.error e : Except ε α) >>= f = .error e := rfl

@[simp] theorem exceptPure_eq {ε α : Type} (a : α) :
    (pure a : Except ε α) = Except.ok a := rfl

@[simp] theorem exceptMap_ok {ε α β : Type} (a : α) (f : α → β) :
    Except.map f (Except.ok a : Except ε α) = .ok (f a) := rfl

@[simp] theorem exceptMap_err {ε α β : Type} (e : ε) (f : α → β) :
    Except.map f (Except.error e : Except ε α) = .error e := rfl

/-- Positional access `xs.iloc[-k]` (k ≥ 1) on a NaN-free column:
`IndexError` when `k = 0` or `k` exceeds the length. -/
def ilocQ (xs : List ℚ) (k : ℕ) : Except String ℚ :=
  if h : 0 < k ∧ k ≤ xs.length then
    .ok (xs.get ⟨xs.length - k, by omega⟩)
  else
    .error "IndexError"

/-- Positional access `xs.iloc[-k]` (k ≥ 1) on a column that may hold NaN. -/
def ilocO (xs : List (Option ℚ)) (k : ℕ) : Except String (Option ℚ) :=
  if h : 0 < k ∧ k ≤ xs.length then
    .ok (xs.get ⟨xs.length - k, by omega⟩)
  else
    .error "IndexError"

/-- Positional access `xs.iloc[0]`: `IndexError` on an empty column. -/
def ilocHead (xs : List ℚ) : Except String ℚ :=
  match xs with
  | [] => .error "IndexError"
  | x :: _ => .ok x

/-- Cell of a possibly-NaN column at row `i` for vectorised (mask) operations;
out-of-range rows do not occur for aligned columns but are mapped to NaN. -/
def cellO (xs : List (Option ℚ)) (i : ℕ) : Option ℚ :=
  (xs.get? i).join

/-- Cell of a NaN-free column at row `i`. -/
def cellQ (xs : List ℚ) (i : ℕ) : Option ℚ :=
  xs.get? i

/-- Cell of `xs.shift(1)` at row `i`: row 0 becomes NaN. -/
def shiftO (xs : List (Option ℚ)) (i : ℕ) : Option ℚ :=
  match i with
  | 0 => none
  | j + 1 => cellO xs j

/-- DataFrame as it flows through this pipeline: the OHLCV base columns that
the engine reads (`close`, `volume`) plus every indicator column that
`calculate_technical_indicators` adds.  All columns are row-aligned. -/
structure DF where
  close : List ℚ
  volume : List ℚ
  rsi : List (Option ℚ)
  macd : List (Option ℚ)
  macdSignal : List (Option ℚ)
  macdHist : List (Option ℚ)
  bbUpper : List (Option ℚ)
  bbMiddle : List (Option ℚ)
  bbLower : List (Option ℚ)
  sma50 : List (Option ℚ)
  sma200 : List (Option ℚ)
  ema20 : List (Option ℚ)
  ema50 : List (Option ℚ)
  signal : List Int
  macdCrossover : List Int
deriving DecidableEq

/-- Raw input DataFrame (only `close` and `volume` populated), as handed to
`calculate_technical_indicators` by the callers in `crypto_analysis.py`. -/
def DF.raw (close volume : List ℚ) : DF :=
  ⟨close, volume, [], [], [], [], [], [], [], [], [], [], [], [], []⟩

/-- Per-bar price deltas `close.diff()` dropping the leading NaN: entry `j`
is the delta at original bar `j+1`. -/
def diffs (closes : List ℚ) : List ℚ :=
  List.zipWith (fun a b => a - b) closes.tail closes

/-- Weighted sum `Σ r^(n-1-j) * xs[j]` via Horner's rule; with `xs` the
observed values this is the numerator (resp. with all-ones, the denominator)
of a pandas `ewm(adjust=True)` mean. -/
def wsum (r : ℚ) (xs : List ℚ) : ℚ :=
  xs.foldl (fun acc x => acc * r + x) 0

/-- Up-moves `close.diff().clip(lower=0)` (leading NaN dropped). -/
def upMoves (closes : List ℚ) : List ℚ :=
  (diffs closes).map (fun d => max d 0)

/-- Down-moves `-close.diff().clip(upper=0)` (leading NaN dropped). -/
def downMoves (closes : List ℚ) : List ℚ :=
  (diffs closes).map (fun d => max (-d) 0)

/-- pandas `ewm(com=period-1, adjust=True, min_periods=period).mean()` of a
series whose single NaN sits at row 0 (the diff), evaluated at row `t`:
defined once `period` observations exist, i.e. for `period ≤ t < length`;
the decay factor is `1 - 1/period = (period-1)/period`. -/
def ewmAdjAt (period : ℕ) (obs : List ℚ) (t : ℕ) : Option ℚ :=
  if period ≤ t ∧ t ≤ obs.length then
    some (wsum ((period - 1 : ℚ) / period) (obs.take t) /
          wsum ((period - 1 : ℚ) / period) (List.replicate t 1))
  else
    none

/-- Smoothed up-move average `ma_up` of `calculate_rsi` at bar `t`. -/
def maUpAt (period : ℕ) (closes : List ℚ) (t : ℕ) : Option ℚ :=
  ewmAdjAt period (upMoves closes) t

/-- Smoothed down-move average `ma_down` of `calculate_rsi` at bar `t`. -/
def maDownAt (period : ℕ) (closes : List ℚ) (t : ℕ) : Option ℚ :=
  ewmAdjAt period (downMoves closes) t

/-- The float expression `100 - 100/(1 + u/d)` of `calculate_rsi` line 56,
with IEEE semantics at a zero denominator made explicit for the reachable
sign cases (`u ≥ 0`, `d ≥ 0`): `u/0 = inf` for `u ≠ 0` giving RSI `100`, and
`0/0 = NaN` giving an undefined RSI. -/
def rsiValQ (u d : ℚ) : Option ℚ :=
  if d = 0 then
    if u = 0 then none else some 100
  else
    some (100 - 100 / (1 + u / d))

/-- RSI value at bar `t` of `calculate_rsi(df, period)`. -/
def rsiAt (period : ℕ) (closes : List ℚ) (t : ℕ) : Option ℚ :=
  match maUpAt period closes t, maDownAt period closes t with
  | some u, some d => rsiValQ u d
  | _, _ => none

/-- The full RSI column added by `calculate_rsi` (default `period=14`). -/
def rsiCol (closes : List ℚ) : List (Option ℚ) :=
  (List.range closes.length).map (fun t => rsiAt 14 closes t)

/-- Recursive tail of pandas `ewm(span, adjust=False).mean()`:
`e_i = α·x_i + (1-α)·e_(i-1)`. -/
def ewmRec (α : ℚ) (prev : ℚ) : List ℚ → List ℚ
  | [] => []
  | x :: xs =>
      let e := α * x + (1 - α) * prev
      e :: ewmRec α e xs

/-- pandas `ewm(span=span, adjust=False).mean()`: seeded by the first value,
smoothing factor `α = 2/(span+1)`, defined from the first bar on. -/
def emaCol (span : ℕ) (xs : List ℚ) : List ℚ :=
  match xs with
  | [] => []
  | x :: rest => x :: ewmRec (2 / (span + 1 : ℚ)) x rest

/-- MACD line of `calculate_macd`: `EMA_12(close) - EMA_26(close)`. -/
def macdCol (closes : List ℚ) : List ℚ :=
  List.zipWith (fun a b => a - b) (emaCol 12 closes) (emaCol 26 closes)

/-- MACD signal line: `EMA_9(MACD)`. -/
def macdSignalCol (closes : List ℚ) : List ℚ :=
  emaCol 9 (macdCol closes)

/-- MACD histogram: `MACD - MACD_signal`. -/
def macdHistCol (closes : List ℚ) : List ℚ :=
  List.zipWith (fun a b => a - b) (macdCol closes) (macdSignalCol closes)

/-- Rolling-window slice of the last `period` values ending at row `i`. -/
def rollWindow (xs : List ℚ) (period i : ℕ) : List ℚ :=
  (xs.take (i + 1)).drop (i + 1 - period)

/-- pandas `rolling(window=period).mean()` at row `i`: NaN until `period`
rows exist. -/
def rollMeanAt (xs : List ℚ) (period i : ℕ) : Option ℚ :=
  if period ≤ i + 1 ∧ i < xs.length then
    some ((rollWindow xs period i).sum / period)
  else
    none

/-- Simple-moving-average column of `calculate_moving_averages`. -/
def smaCol (period : ℕ) (closes : List ℚ) : List (Option ℚ) :=
  (List.range closes.length).map (fun i => rollMeanAt closes period i)

/-- Rolling sample variance (pandas `rolling(period).std()` squared, ddof=1)
at row `i`; the band offset itself is its square root, see `bbStdAt`. -/
def bbVarAt (closes : List ℚ) (period i : ℕ) : Option ℚ :=
  match rollMeanAt closes period i with
  | none => none
  | some m => some (((rollWindow closes period i).map (fun x => (x - m) ^ 2)).sum /
      (period - 1 : ℚ))

noncomputable section

/-- pandas `rolling(period).std()` at row `i`: the (irrational) square root
of the rolling sample variance, over `ℝ`. -/
def bbStdAt (closes : List ℚ) (period i : ℕ) : Option ℝ :=
  (bbVarAt closes period i).map (fun v => Real.sqrt (v : ℝ))

/-- Upper Bollinger band of `calculate_bollinger_bands`:
`BB_middle + rolling_std * num_std`. -/
def bbUpperAt (closes : List ℚ) (period : ℕ) (numStd : ℕ) (i : ℕ) : Option ℝ :=
  match rollMeanAt closes period i, bbStdAt closes period i with
  | some m, some s => some ((m : ℝ) + s * numStd)
  | _, _ => none

/-- Lower Bollinger band of `calculate_bollinger_bands`:
`BB_middle - rolling_std * num_std`. -/
def bbLowerAt (closes : List ℚ) (period : ℕ) (numStd : ℕ) (i : ℕ) : Option ℝ :=
  match rollMeanAt closes period i, bbStdAt closes period i with
  | some m, some s => some ((m : ℝ) - s * numStd)
  | _, _ => none

end

/-- Embeds `calculate_rsi` (technical_indicators.py lines 34-61) at the DF
level: adds the `RSI` column, mutating nothing else. -/
def calculate_rsi (df : DF) : DF :=
  { df with rsi := rsiCol df.close }

/-- Embeds `calculate_macd` (lines 63-90): adds `MACD`, `MACD_signal`,
`MACD_hist` (defined from the first bar: no min-periods gate). -/
def calculate_macd (df : DF) : DF :=
  { df with
    macd := (macdCol df.close).map some
    macdSignal := (macdSignalCol df.close).map some
    macdHist := (macdHistCol df.close).map some }

/-- Embeds `calculate_bollinger_bands` (lines 92-114).  The rolling standard
deviation is a floating square root and hence irrational; it is taken as the
column parameter `stdCol` (its exact value is `bbStdAt`, see the C5
development; no branch of the scorer/consolidator error behaviour depends on
the numeric values in this column). -/
def calculate_bollinger_bands (df : DF) (stdCol : List (Option ℚ)) : DF :=
  let middle := (List.range df.close.length).map (fun i => rollMeanAt df.close 20 i)
  { df with
    bbMiddle := middle
    bbUpper := List.zipWith (fun m s =>
      match m, s with
      | some m, some s => some (m + s * 2)
      | _, _ => none) middle stdCol
    bbLower := List.zipWith (fun m s =>
      match m, s with
      | some m, some s => some (m - s * 2)
      | _, _ => none) middle stdCol }

/-- Embeds `calculate_moving_averages` (lines 116-134). -/
def calculate_moving_averages (df : DF) : DF :=
  { df with
    sma50 := smaCol 50 df.close
    sma200 := smaCol 200 df.close
    ema20 := (emaCol 20 df.close).map some
    ema50 := (emaCol 50 df.close).map some }

/-- Row `i` of the `macd_crossover` helper column built by `calculate_signals`
(lines 159-163): `0`, overwritten by `1` on a bullish cross
(`MACD > signal` and shifted `MACD <= signal`), then by `-1` on a bearish
cross. -/
def macdCrossoverAt (df : DF) (i : ℕ) : Int :=
  let s : Int := 0
  let s := if (cGT (cellO df.macd i) (cellO df.macdSignal i) &&
               cLE (shiftO df.macd i) (shiftO df.macdSignal i)) then 1 else s
  let s := if (cLT (cellO df.macd i) (cellO df.macdSignal i) &&
               cGE (shiftO df.macd i) (shiftO df.macdSignal i)) then -1 else s
  s

/-- Row `i` of the `signal` column built by `calculate_signals`
(lines 146-186): initialised to 0, then overwritten in source order by the
RSI thresholds, the MACD crossovers, the Bollinger 1.01/0.99 proximity
rules, and finally the SMA Golden/Death Cross masks (each `df.loc`
assignment overwrites what earlier masks wrote on the same row). -/
def signalAt (df : DF) (i : ℕ) : Int :=
  let s : Int := 0
  let s := if cLT (cellO df.rsi i) (some 30) then 1 else s
  let s := if cGT (cellO df.rsi i) (some 70) then -1 else s
  let s := if macdCrossoverAt df i = 1 then 1 else s
  let s := if macdCrossoverAt df i = -1 then -1 else s
  let s := if cLT (cellQ df.close i) (scaleCell (cellO df.bbLower i) (101 / 100)) then 1 else s
  let s := if cGT (cellQ df.close i) (scaleCell (cellO df.bbUpper i) (99 / 100)) then -1 else s
  let s := if (cGT (cellO df.sma50 i) (cellO df.sma200 i) &&
               cLE (shiftO df.sma50 i) (shiftO df.sma200 i)) then 1 else s
  let s := if (cLT (cellO df.sma50 i) (cellO df.sma200 i) &&
               cGE (shiftO df.sma50 i) (shiftO df.sma200 i)) then -1 else s
  s

/-- Embeds `calculate_signals` (lines 136-186) at the DF level; in the
pipeline every guarded column exists, so all four mask groups apply. -/
def calculate_signals (df : DF) : DF :=
  { df with
    macdCrossover := (List.range df.close.length).map (fun i => macdCrossoverAt df i)
    signal := (List.range df.close.length).map (fun i => signalAt df i) }

/-- Embeds `calculate_technical_indicators` (lines 4-32): `df.copy()` (value
semantics: the input value is untouched) followed by the five indicator
passes on the copy, which becomes the return value.  `stdCol` is the
Bollinger rolling-std column (see `calculate_bollinger_bands`). -/
def calculate_technical_indicators (df : DF) (stdCol : List (Option ℚ)) : DF :=
  calculate_signals
    (calculate_moving_averages
      (calculate_bollinger_bands
        (calculate_macd
          (calculate_rsi df)) stdCol))

/-- The pipeline DataFrame handed to the scorer/consolidator for a raw
OHLCV series. -/
def mkDF (close volume : List ℚ) (stdCol : List (Option ℚ)) : DF :=
  calculate_technical_indicators (DF.raw close volume) stdCol

/-- Tier function of the momentum clause (crypto_analysis.py lines 52-57). -/
def momTier (pc : ℚ) : ℚ :=
  if pc > 10 then 2 else if pc > 5 then 1 else if pc > 0 then 1 / 2 else 0

/-- Momentum clause of `calculate_crypto_score` (lines 50-57):
`price_change = (close.iloc[-1] / close.iloc[0] - 1) * 100` over the WHOLE
series, then the 2.0 / 1.0 / 0.5 tier ladder. -/
def momentumPoints (df : DF) : Except String ℚ := do
  let last ← ilocQ df.close 1
  let first ← ilocHead df.close
  let pc := (last / first - 1) * 100
  pure (momTier pc)

/-- Modelled from the spec: the momentum clause as the spec states it, a
7-bar-window close return (`close.iloc[-1] / close.iloc[-7] - 1`), used to
compare the specified behaviour with the source's full-series return. -/
def momentumPointsSpec7 (df : DF) : Except String ℚ := do
  let last ← ilocQ df.close 1
  let back ← ilocQ df.close 7
  let pc := (last / back - 1) * 100
  pure (momTier pc)

/-- RSI clause of `calculate_crypto_score` (lines 60-70): balanced
40-60 → +0.5, undervalued 30-40 → +1.0, oversold < 30 → +1.5 (elif
ladder; a NaN RSI satisfies no condition). -/
def rsiPoints (df : DF) (sel : List String) : Except String ℚ :=
  if "RSI" ∈ sel then do
    let r ← ilocO df.rsi 1
    pure (if cLE (some 40) r && cLE r (some 60) then 1 / 2
          else if cLE (some 30) r && cLT r (some 40) then 1
          else if cLT r (some 30) then 3 / 2
          else 0)
  else pure 0

/-- MACD clause of `calculate_crypto_score` (lines 72-81): three independent
bonuses; the recent-crossover test only reads `iloc[-2]` of `MACD`/`MACD_signal`
when its first conjunct holds (Python `and` short-circuit), while the
histogram test reads `MACD_hist.iloc[-2]` unconditionally. -/
def macdPoints (df : DF) (sel : List String) : Except String ℚ :=
  if "MACD" ∈ sel then do
    let m1 ← ilocO df.macd 1
    let s1 ← ilocO df.macdSignal 1
    let p1 : ℚ := if cGT m1 s1 then 1 else 0
    let h1 ← ilocO df.macdHist 1
    let h2 ← ilocO df.macdHist 2
    let p2 : ℚ := if cGT h1 h2 then 1 / 2 else 0
    let p3 ← if cGT m1 s1 then do
        let m2 ← ilocO df.macd 2
        let s2 ← ilocO df.macdSignal 2
        pure (if cLE m2 s2 then (3 / 2 : ℚ) else 0)
      else pure (0 : ℚ)
    pure (p1 + p2 + p3)
  else pure 0

/-- Bollinger clause of `calculate_crypto_score` (lines 83-89): near the
lower band (`close < BB_lower * 1.05`) → +1.0; bounce off the lower band
(`close[-1] > close[-2]` and `close[-2] < BB_lower[-2]`) → +1.5.  The
bounce test reads `close.iloc[-2]` unconditionally (left operand of its
first comparison) and `BB_lower.iloc[-2]` only when that comparison holds. -/
def bbPoints (df : DF) (sel : List String) : Except String ℚ :=
  if "Bollinger Bands" ∈ sel then do
    let c1 ← ilocQ df.close 1
    let l1 ← ilocO df.bbLower 1
    let p1 : ℚ := if cLT (some c1) (scaleCell l1 (21 / 20)) then 1 else 0
    let c2 ← ilocQ df.close 2
    let p2 ← if c1 > c2 then do
        let l2 ← ilocO df.bbLower 2
        pure (if cLT (some c2) l2 then (3 / 2 : ℚ) else 0)
      else pure (0 : ℚ)
    pure (p1 + p2)
  else pure 0

/-- EMA clause of `calculate_crypto_score` (lines 91-97): `EMA_20 > EMA_50`
→ +1.0; recent upward cross → +1.5 (previous-bar values read only when the
first conjunct holds). -/
def emaPoints (df : DF) (sel : List String) : Except String ℚ :=
  if "EMA" ∈ sel then do
    let e1 ← ilocO df.ema20 1
    let f1 ← ilocO df.ema50 1
    let p1 : ℚ := if cGT e1 f1 then 1 else 0
    let p2 ← if cGT e1 f1 then do
        let e2 ← ilocO df.ema20 2
        let f2 ← ilocO df.ema50 2
        pure (if cLE e2 f2 then (3 / 2 : ℚ) else 0)
      else pure (0 : ℚ)
    pure (p1 + p2)
  else pure 0

/-- SMA clause of `calculate_crypto_score` (lines 99-108): price above both
SMAs → +1.0; `SMA_50 > SMA_200` → +1.0; recent Golden Cross (vs. the bar
`iloc[-20]`) → +2.0, the `iloc[-20]` reads happening only when
`SMA_50 > SMA_200` at the latest bar (short-circuit). -/
def smaPoints (df : DF) (sel : List String) : Except String ℚ :=
  if "SMA" ∈ sel then do
    let c ← ilocQ df.close 1
    let s50 ← ilocO df.sma50 1
    let s200 ← ilocO df.sma200 1
    let p1 : ℚ := if cGT (some c) s50 && cGT (some c) s200 then 1 else 0
    let p2 : ℚ := if cGT s50 s200 then 1 else 0
    let p3 ← if cGT s50 s200 then do
        let a ← ilocO df.sma50 20
        let b ← ilocO df.sma200 20
        pure (if cLE a b then (2 : ℚ) else 0)
      else pure (0 : ℚ)
    pure (p1 + p2 + p3)
  else pure 0

/-- Rolling 7-bar mean of the volume column at the last row (pandas
`rolling(window=7).mean().iloc[-1]`): NaN until 7 rows exist. -/
def volRollMeanLast (vol : List ℚ) : Option ℚ :=
  if 7 ≤ vol.length then some ((vol.drop (vol.length - 7)).sum / 7) else none

/-- Volume clause of `calculate_crypto_score` (lines 110-121): ratio of the
latest volume to its 7-bar rolling mean, +1.0 above 1.5, +0.5 above 1.2.
The source wraps this block in `try/except (ZeroDivisionError, ValueError,
IndexError): pass`, so it is total: the empty-series `IndexError` and the
NaN mean (`volume_mean > 0` false) both yield 0 points. -/
def volumePoints (vol : List ℚ) : ℚ :=
  match vol.getLast? with
  | none => 0
  | some v =>
    match volRollMeanLast vol with
    | none => 0
    | some m =>
      if m > 0 then
        let vc := v / m
        if vc > 3 / 2 then 1 else if vc > 6 / 5 then 1 / 2 else 0
      else 0

/-- Embeds `calculate_crypto_score` (crypto_analysis.py lines 37-123): the
additive point system, blocks in source order, over the `Except` monad
(`IndexError` propagates except inside the volume block). -/
def calculate_crypto_score (df : DF) (sel : List String) : Except String ℚ := do
  let m ← momentumPoints df
  let r ← rsiPoints df sel
  let ma ← macdPoints df sel
  let bb ← bbPoints df sel
  let em ← emaPoints df sel
  let sm ← smaPoints df sel
  pure (m + r + ma + bb + em + sm + volumePoints df.volume)

/-- Vote triple `(buy_signals, sell_signals, neutral_signals)` accumulated by
one indicator block of `analyze_crypto`. -/
abbrev Votes := ℚ × ℚ × ℚ

/-- RSI block of `analyze_crypto` (lines 176-188): `<30` → +1 buy, `>70` →
+1 sell, otherwise (including a NaN RSI) → +1 neutral. -/
def rsiVotes (df : DF) (sel : List String) : Except String Votes :=
  if "RSI" ∈ sel then do
    let r ← ilocO df.rsi 1
    pure (if cLT r (some 30) then ((1 : ℚ), (0 : ℚ), (0 : ℚ))
          else if cGT r (some 70) then (0, 1, 0)
          else (0, 0, 1))
  else pure (0, 0, 0)

/-- MACD block of `analyze_crypto` (lines 191-216): recent bullish cross →
+1 buy; recent bearish cross → +1 sell; else position above/below the
signal line → +0.5 buy/sell; else (equal or NaN) → +1 neutral.  The
previous-bar reads happen only when the corresponding first conjunct holds
(Python `and` short-circuit). -/
def macdVotes (df : DF) (sel : List String) : Except String Votes :=
  if "MACD" ∈ sel then do
    let m ← ilocO df.macd 1
    let s ← ilocO df.macdSignal 1
    let _h ← ilocO df.macdHist 1
    if cGT m s then do
      let m2 ← ilocO df.macd 2
      let s2 ← ilocO df.macdSignal 2
      if cLE m2 s2 then pure ((1 : ℚ), (0 : ℚ), (0 : ℚ))
      else pure (1 / 2, 0, 0)
    else if cLT m s then do
      let m2 ← ilocO df.macd 2
      let s2 ← ilocO df.macdSignal 2
      if cGE m2 s2 then pure (0, 1, 0)
      else pure (0, 1 / 2, 0)
    else pure (0, 0, 1)
  else pure (0, 0, 0)

/-- Bollinger block of `analyze_crypto` (lines 219-239): `close < lower*1.05`
→ +1 buy; elif `close > upper*0.95` → +1 sell; else (between the bands or
NaN bands) → +1 neutral. -/
def bbVotes (df : DF) (sel : List String) : Except String Votes :=
  if "Bollinger Bands" ∈ sel then do
    let price ← ilocQ df.close 1
    let upper ← ilocO df.bbUpper 1
    let lower ← ilocO df.bbLower 1
    pure (if cLT (some price) (scaleCell lower (21 / 20)) then ((1 : ℚ), (0 : ℚ), (0 : ℚ))
          else if cGT (some price) (scaleCell upper (19 / 20)) then (0, 1, 0)
          else (0, 0, 1))
  else pure (0, 0, 0)

/-- SMA block of `analyze_crypto` (lines 242-267): Golden Cross
(`SMA_50 > SMA_200` now while `iloc[-20]` had `SMA_50 <= SMA_200`) → +2 buy;
Death Cross (mirror) → +2 sell; else position → +0.5 buy/sell; else (equal
or NaN) → +0.5 neutral.  The `iloc[-20]` reads happen only when the
corresponding position conjunct holds. -/
def smaVotes (df : DF) (sel : List String) : Except String Votes :=
  if "SMA" ∈ sel then do
    let _price ← ilocQ df.close 1
    let s50 ← ilocO df.sma50 1
    let s200 ← ilocO df.sma200 1
    if cGT s50 s200 then do
      let a ← ilocO df.sma50 20
      let b ← ilocO df.sma200 20
      if cLE a b then pure ((2 : ℚ), (0 : ℚ), (0 : ℚ))
      else pure (1 / 2, 0, 0)
    else if cLT s50 s200 then do
      let a ← ilocO df.sma50 20
      let b ← ilocO df.sma200 20
      if cGE a b then pure (0, 2, 0)
      else pure (0, 1 / 2, 0)
    else pure (0, 0, 1 / 2)
  else pure (0, 0, 0)

/-- EMA block of `analyze_crypto` (lines 270-293): recent cross → +1
buy/sell; else position → +0.5 buy/sell; else → +0.5 neutral. -/
def emaVotes (df : DF) (sel : List String) : Except String Votes :=
  if "EMA" ∈ sel then do
    let e ← ilocO df.ema20 1
    let f ← ilocO df.ema50 1
    if cGT e f then do
      let e2 ← ilocO df.ema20 2
      let f2 ← ilocO df.ema50 2
      if cLE e2 f2 then pure ((1 : ℚ), (0 : ℚ), (0 : ℚ))
      else pure (1 / 2, 0, 0)
    else if cLT e f then do
      let e2 ← ilocO df.ema20 2
      let f2 ← ilocO df.ema50 2
      if cGE e2 f2 then pure (0, 1, 0)
      else pure (0, 1 / 2, 0)
    else pure (0, 0, 1 / 2)
  else pure (0, 0, 0)

/-- Accumulated `(buy_signals, sell_signals, neutral_signals)` of
`analyze_crypto` after the five indicator blocks (source order: RSI, MACD,
Bollinger, SMA, EMA). -/
def voteTotals (df : DF) (sel : List String) : Except String Votes := do
  let v1 ← rsiVotes df sel
  let v2 ← macdVotes df sel
  let v3 ← bbVotes df sel
  let v4 ← smaVotes df sel
  let v5 ← emaVotes df sel
  pure (v1.1 + v2.1 + v3.1 + v4.1 + v5.1,
        v1.2.1 + v2.2.1 + v3.2.1 + v4.2.1 + v5.2.1,
        v1.2.2 + v2.2.2 + v3.2.2 + v4.2.2 + v5.2.2)

/-- Final consolidated signal values. -/
inductive Sig
  | buy
  | sell
  | neutral
deriving DecidableEq

/-- Strength tier embedded in the reason string ("fort" / "modéré"). -/
inductive Strength
  | strong
  | moderate
deriving DecidableEq

/-- Consolidation rule of `analyze_crypto` (lines 296-319): `buy > sell+0.5`
→ Buy, strong iff `buy >= 2*sell`; elif `sell > buy+0.5` → Sell, strong iff
`sell >= 2*buy`; else Neutral (no strength). -/
def consolidateRule (b s : ℚ) : Sig × Option Strength :=
  if b > s + 1 / 2 then
    (Sig.buy, some (if b ≥ 2 * s then Strength.strong else Strength.moderate))
  else if s > b + 1 / 2 then
    (Sig.sell, some (if s ≥ 2 * b then Strength.strong else Strength.moderate))
  else
    (Sig.neutral, none)

/-- Embeds `analyze_crypto` (crypto_analysis.py lines 157-321), projected to
the `(signal, strength)` component of its result (reason/details/advice are
formatting around these values). -/
def analyze_crypto (df : DF) (sel : List String) : Except String (Sig × Option Strength) := do
  let v ← voteTotals df sel
  pure (consolidateRule v.1 v.2.1)

/-- Python `sorted`'s insertion step for a descending, stable sort on the
score component: an element is placed before the first element whose score
is not larger (equal scores keep the earlier-processed element first). -/
def insertDesc (x : String × ℚ) : List (String × ℚ) → List (String × ℚ)
  | [] => [x]
  | y :: ys => if y.2 ≤ x.2 then x :: y :: ys else y :: insertDesc x ys

/-- Stable descending sort by score, modelling
`sorted(scores.items(), key=lambda x: x[1], reverse=True)` (Python's sort is
stable; any stable sort on the same key produces the same list). -/
def sortDesc : List (String × ℚ) → List (String × ℚ)
  | [] => []
  | x :: xs => insertDesc x (sortDesc xs)

/-- Ranking step of `identify_promising_cryptocurrencies` (crypto_analysis.py
lines 17-35) given the computed symbol→score mapping (a `dict`, i.e. an
insertion-ordered association list): sort by score descending (stable) and
truncate to `top_n`. -/
def identify_promising_cryptocurrencies (scores : List (String × ℚ)) (top_n : ℕ) :
    List (String × ℚ) :=
  (sortDesc scores).take top_n

/-! Helper lemmas about the stable descending insertion sort (Ranker). -/

/-- Membership is preserved under descending insertion. -/
theorem mem_insertDesc (x y : String × ℚ) (l : List (String × ℚ)) :
    y ∈ insertDesc x l ↔ y = x ∨ y ∈ l := by
  induction l with
  | nil => simp [insertDesc]
  | cons z zs ih =>
    by_cases h : z.2 ≤ x.2
    · simp [insertDesc, h]
    · simp only [insertDesc, if_neg h, List.mem_cons, ih]
      tauto

/-- Descending insertion preserves descending pairwise order. -/
theorem pairwise_insertDesc (x : String × ℚ) (l : List (String × ℚ))
    (h : l.Pairwise (fun a b => b.2 ≤ a.2)) :
    (insertDesc x l).Pairwise (fun a b => b.2 ≤ a.2) := by
  induction l with
  | nil => simp [insertDesc]
  | cons z zs ih =>
    rcases List.pairwise_cons.mp h with ⟨hz, hzs⟩
    by_cases hc : z.2 ≤ x.2
    · rw [insertDesc, if_pos hc]
      refine List.pairwise_cons.mpr ⟨?_, h⟩
      intro b hb
      rcases List.mem_cons.mp hb with rfl | hb
      · exact hc
      · exact le_trans (hz b hb) hc
    · rw [insertDesc, if_neg hc]
      refine List.pairwise_cons.mpr ⟨?_, ih hzs⟩
      intro b hb
      rcases (mem_insertDesc x b zs).mp hb with rfl | hb
      · exact le_of_not_le hc
      · exact hz b hb

/-- Descending insertion is a permutation of consing. -/
theorem perm_insertDesc (x : String × ℚ) (l : List (String × ℚ)) :
    List.Perm (insertDesc x l) (x :: l) := by
  induction l with
  | nil => rfl
  | cons z zs ih =>
    by_cases hc : z.2 ≤ x.2
    · rw [insertDesc, if_pos hc]
    · rw [insertDesc, if_neg hc]
      exact (ih.cons z).trans (List.Perm.swap x z zs)

/-- Stability kernel: inserting `x` commutes with score-filtering, because
every element the insertion walks past has a strictly larger score. -/
theorem filter_insertDesc (q : ℚ) (x : String × ℚ) (l : List (String × ℚ)) :
    (insertDesc x l).filter (fun p => decide (p.2 = q)) =
      (x :: l).filter (fun p => decide (p.2 = q)) := by
  induction l with
  | nil => rfl
  | cons z zs ih =>
    by_cases hc : z.2 ≤ x.2
    · rw [insertDesc, if_pos hc]
    · rw [insertDesc, if_neg hc]
      by_cases hz : z.2 = q
      · have hx : ¬ x.2 = q := by
          intro hx
          exact hc (le_of_eq (hz.trans hx.symm))
        simp [List.filter_cons, hz, hx, ih]
      · simp [List.filter_cons, hz, ih]

/-- C8: the ranking returned by `identify_promising_cryptocurrencies` is the
`top_n`-truncation of a stable descending sort of the input mapping: the
sorted list is pairwise descending in score, is a permutation of the input,
and for every score value the elements carrying that score appear in input
iteration order (stability). -/
theorem ranker_sorted_stable_truncated (scores : List (String × ℚ)) (top_n : ℕ) :
    identify_promising_cryptocurrencies scores top_n = (sortDesc scores).take top_n ∧
    (sortDesc scores).Pairwise (fun a b => b.2 ≤ a.2) ∧
    List.Perm (sortDesc scores) scores ∧
    ∀ q : ℚ, (sortDesc scores).filter (fun p => decide (p.2 = q)) =
      scores.filter (fun p => decide (p.2 = q)) := by
  refine ⟨rfl, ?_, ?_, ?_⟩
  · induction scores with
    | nil => simp [sortDesc]
    | cons x xs ih => exact pairwise_insertDesc x (sortDesc xs) ih
  · induction scores with
    | nil => rfl
    | cons x xs ih => exact (perm_insertDesc x (sortDesc xs)).trans (ih.cons x)
  · intro q
    induction scores with
    | nil => rfl
    | cons x xs ih =>
      calc (sortDesc (x :: xs)).filter (fun p => decide (p.2 = q))
          = (x :: sortDesc xs).filter (fun p => decide (p.2 = q)) :=
            filter_insertDesc q x (sortDesc xs)
        _ = (x :: xs).filter (fun p => decide (p.2 = q)) := by
            simp only [List.filter_cons, ih]

/-- C9: `calculate_technical_indicators` never mutates its input: it works
on `df.copy()` (value semantics here), returning that copy with indicator
columns added; the caller's base data (`close`, `volume`) reappears
unchanged in the result, and the input value itself is untouched. -/
theorem indicators_preserve_input (df : DF) (stdCol : List (Option ℚ)) :
    (calculate_technical_indicators df stdCol).close = df.close ∧
    (calculate_technical_indicators df stdCol).volume = df.volume := by
  constructor <;> rfl

/-- C10: every bar of the `signal` column holds exactly one value from
{-1, 0, 1}, and the mask assignments of `calculate_signals` are
last-writer-wins: the SMA Death/Golden Cross masks override the Bollinger
proximity masks (which use the 1.01/0.99 thresholds, not the consolidator's
1.05/0.95), which override the MACD crossover masks, which override the RSI
threshold masks; within each pair the sell mask is written after the buy
mask. -/
theorem signal_column_last_writer (df : DF) (i : ℕ) :
    signalAt df i ∈ ({-1, 0, 1} : Set ℤ) ∧
    signalAt df i =
      (if cLT (cellO df.sma50 i) (cellO df.sma200 i) &&
          cGE (shiftO df.sma50 i) (shiftO df.sma200 i) then -1
       else if cGT (cellO df.sma50 i) (cellO df.sma200 i) &&
          cLE (shiftO df.sma50 i) (shiftO df.sma200 i) then 1
       else if cGT (cellQ df.close i) (scaleCell (cellO df.bbUpper i) (99 / 100)) then -1
       else if cLT (cellQ df.close i) (scaleCell (cellO df.bbLower i) (101 / 100)) then 1
       else if macdCrossoverAt df i = -1 then -1
       else if macdCrossoverAt df i = 1 then 1
       else if cGT (cellO df.rsi i) (some 70) then -1
       else if cLT (cellO df.rsi i) (some 30) then 1
       else 0) ∧
    (calculate_signals df).signal = (List.range df.close.length).map (signalAt df) := by
  have heq : signalAt df i =
      (if cLT (cellO df.sma50 i) (cellO df.sma200 i) &&
          cGE (shiftO df.sma50 i) (shiftO df.sma200 i) then -1
       else if cGT (cellO df.sma50 i) (cellO df.sma200 i) &&
          cLE (shiftO df.sma50 i) (shiftO df.sma200 i) then 1
       else if cGT (cellQ df.close i) (scaleCell (cellO df.bbUpper i) (99 / 100)) then -1
       else if cLT (cellQ df.close i) (scaleCell (cellO df.bbLower i) (101 / 100)) then 1
       else if macdCrossoverAt df i = -1 then -1
       else if macdCrossoverAt df i = 1 then 1
       else if cGT (cellO df.rsi i) (some 70) then -1
       else if cLT (cellO df.rsi i) (some 30) then 1
       else 0) := by
    unfold signalAt
    by_cases h8 : (cLT (cellO df.sma50 i) (cellO df.sma200 i) &&
        cGE (shiftO df.sma50 i) (shiftO df.sma200 i)) = true
    · simp [h8]
    by_cases h7 : (cGT (cellO df.sma50 i) (cellO df.sma200 i) &&
        cLE (shiftO df.sma50 i) (shiftO df.sma200 i)) = true
    · simp [h8, h7]
    by_cases h6 : cGT (cellQ df.close i) (scaleCell (cellO df.bbUpper i) (99 / 100)) = true
    · simp [h8, h7, h6]
    by_cases h5 : cLT (cellQ df.close i) (scaleCell (cellO df.bbLower i) (101 / 100)) = true
    · simp [h8, h7, h6, h5]
    by_cases h4 : macdCrossoverAt df i = -1
    · simp [h8, h7, h6, h5, h4]
    by_cases h3 : macdCrossoverAt df i = 1
    · simp [h8, h7, h6, h5, h4, h3]
    by_cases h2 : cGT (cellO df.rsi i) (some 70) = true
    · simp [h8, h7, h6, h5, h4, h3, h2]
    by_cases h1 : cLT (cellO df.rsi i) (some 30) = true
    · simp [h8, h7, h6, h5, h4, h3, h2, h1]
    · simp [h8, h7, h6, h5, h4, h3, h2, h1]
  refine ⟨?_, heq, rfl⟩
  rw [heq]
  split_ifs <;> simp

/-- C1: the output signal of `analyze_crypto` is exactly
`consolidateRule buy_votes sell_votes`, and that rule is the spec's
tie-break: `buy > sell + 0.5` gives Buy with strength strong exactly when
`buy >= 2*sell` (else moderate); symmetrically for Sell; all remaining
cases give Neutral.  In particular votes (1.5, 1.0) give Neutral and votes
(2.0, 1.0) give a strong Buy. -/
theorem analyze_crypto_consolidation_tiebreak (df : DF) (sel : List String)
    (b s n : ℚ) (h : voteTotals df sel = .ok (b, s, n)) :
    analyze_crypto df sel = .ok (consolidateRule b s) ∧
    (b > s + 1 / 2 → consolidateRule b s =
      (Sig.buy, some (if b ≥ 2 * s then Strength.strong else Strength.moderate))) ∧
    (s > b + 1 / 2 → consolidateRule b s =
      (Sig.sell, some (if s ≥ 2 * b then Strength.strong else Strength.moderate))) ∧
    (¬ b > s + 1 / 2 → ¬ s > b + 1 / 2 → consolidateRule b s = (Sig.neutral, none)) ∧
    consolidateRule (3 / 2) 1 = (Sig.neutral, none) ∧
    consolidateRule 2 1 = (Sig.buy, some Strength.strong) := by
  refine ⟨?_, ?_, ?_, ?_, by norm_num [consolidateRule], by norm_num [consolidateRule]⟩
  · unfold analyze_crypto
    rw [h]
    rfl
  · intro hb
    unfold consolidateRule
    rw [if_pos hb]
  · intro hs
    unfold consolidateRule
    rw [if_neg (by linarith), if_pos hs]
  · intro hb hs
    unfold consolidateRule
    rw [if_neg hb, if_neg hs]

/-- Concrete DF used by several witnesses: two bars with an oversold RSI at
the latest bar, all other indicator columns NaN. -/
def dfW : DF :=
  ⟨[1, 2], [1, 1], [none, some 20], [none, none], [none, none], [none, none],
   [none, none], [none, none], [none, none], [none, none], [none, none],
   [none, none], [none, none], [], []⟩

/-- Witness for C1: on `dfW` with only RSI selected the votes are
`(1, 0, 0)` and the consolidated signal is a strong Buy. -/
theorem analyze_crypto_consolidation_tiebreak_witness :
    analyze_crypto dfW ["RSI"] = .ok (consolidateRule 1 0) ∧
    consolidateRule 1 0 = (Sig.buy, some Strength.strong) := by
  have h := analyze_crypto_consolidation_tiebreak dfW ["RSI"] 1 0 0 (by decide)
  exact ⟨h.1, by norm_num [consolidateRule]⟩

/-- C6: case-exhaustive description of the SMA block of `analyze_crypto`:
with SMA selected and the latest-bar and 20th-from-last-bar values read
successfully, a Golden Cross (`SMA_50 > SMA_200` at the latest bar while
`SMA_50 <= SMA_200` at `iloc[-20]`) contributes exactly +2 buy votes, a
Death Cross +2 sell votes, and otherwise the position comparison gives
+0.5 buy / +0.5 sell / +0.5 neutral (the last covering equality and
undefined SMAs, whose NaN comparisons are all false). -/
theorem sma_golden_cross_votes (df : DF) (sel : List String)
    (hsel : "SMA" ∈ sel) (p : ℚ) (s50 s200 a b : Option ℚ)
    (hp : ilocQ df.close 1 = .ok p)
    (h50 : ilocO df.sma50 1 = .ok s50) (h200 : ilocO df.sma200 1 = .ok s200)
    (ha : ilocO df.sma50 20 = .ok a) (hb : ilocO df.sma200 20 = .ok b) :
    (cGT s50 s200 = true → cLE a b = true → smaVotes df sel = .ok (2, 0, 0)) ∧
    (cGT s50 s200 = true → cLE a b = false → smaVotes df sel = .ok (1 / 2, 0, 0)) ∧
    (cLT s50 s200 = true → cGE a b = true → smaVotes df sel = .ok (0, 2, 0)) ∧
    (cLT s50 s200 = true → cGE a b = false → smaVotes df sel = .ok (0, 1 / 2, 0)) ∧
    (cGT s50 s200 = false → cLT s50 s200 = false → smaVotes df sel = .ok (0, 0, 1 / 2)) := by
  have hlg : cLT s50 s200 = true → cGT s50 s200 = false := by
    intro hg
    cases s50 <;> cases s200 <;> simp_all [cGT, cLT]
    linarith
  refine ⟨?_, ?_, ?_, ?_, ?_⟩ <;> intro h1 h2
  · simp [smaVotes, hsel, hp, h50, h200, ha, hb, h1, h2]
  · simp [smaVotes, hsel, hp, h50, h200, ha, hb, h1, h2]
  · simp [smaVotes, hsel, hp, h50, h200, ha, hb, h1, h2, hlg h1]
  · simp [smaVotes, hsel, hp, h50, h200, ha, hb, h1, h2, hlg h1]
  · simp [smaVotes, hsel, hp, h50, h200, h1, h2]

/-- Concrete DF exhibiting a Golden Cross: `SMA_50 > SMA_200` at the latest
bar while `SMA_50 <= SMA_200` at `iloc[-20]`. -/
def dfS : DF :=
  ⟨List.replicate 20 1, List.replicate 20 1, List.replicate 20 none,
   List.replicate 20 none, List.replicate 20 none, List.replicate 20 none,
   List.replicate 20 none, List.replicate 20 none, List.replicate 20 none,
   some 1 :: (List.replicate 18 none ++ [some 5]),
   some 2 :: (List.replicate 18 none ++ [some 3]),
   List.replicate 20 none, List.replicate 20 none, [], []⟩

/-- Witness for C6: on `dfS` the Golden Cross case fires and contributes
exactly +2 buy votes. -/
theorem sma_golden_cross_votes_witness : smaVotes dfS ["SMA"] = .ok (2, 0, 0) :=
  (sma_golden_cross_votes dfS ["SMA"] (by decide) 1 (some 5) (some 3) (some 1) (some 2)
    (by decide) (by decide) (by decide) (by decide) (by decide)).1 (by decide) (by decide)

/-- C2 (amended): the momentum clause of `calculate_crypto_score` is
computed over the WHOLE input series — `price_change` is the percentage
return from the first to the last close — and awards +2.0 above 10%, +1.0
above 5% (and at most 10%), +0.5 above 0% (and at most 5%), else 0. -/
theorem momentum_fullseries_tiers (df : DF) (last first : ℚ)
    (h1 : ilocQ df.close 1 = .ok last) (h0 : ilocHead df.close = .ok first) :
    momentumPoints df = .ok (momTier ((last / first - 1) * 100)) ∧
    ∀ pc : ℚ,
      (10 < pc → momTier pc = 2) ∧
      (5 < pc → pc ≤ 10 → momTier pc = 1) ∧
      (0 < pc → pc ≤ 5 → momTier pc = 1 / 2) ∧
      (pc ≤ 0 → momTier pc = 0) := by
  constructor
  · simp [momentumPoints, h1, h0]
  · intro pc
    refine ⟨fun h => ?_, fun h h' => ?_, fun h h' => ?_, fun h => ?_⟩ <;>
      unfold momTier
    · rw [if_pos h]
    · rw [if_neg (by linarith), if_pos h]
    · rw [if_neg (by linarith), if_neg (by linarith), if_pos h]
    · rw [if_neg (by linarith), if_neg (by linarith), if_neg (by linarith)]

/-- Witness for C2's amended theorem, at a two-bar series with a 100%
full-series return. -/
theorem momentum_fullseries_tiers_witness :
    momentumPoints (DF.raw [1, 2] [1, 1]) = .ok (momTier ((2 / 1 - 1) * 100)) ∧
    momTier ((2 / 1 - 1) * 100) = 2 := by
  refine ⟨(momentum_fullseries_tiers (DF.raw [1, 2] [1, 1]) 2 1 (by decide) (by decide)).1,
    by decide⟩

/-- Series on which the claimed 7-bar-window momentum and the implemented
full-series momentum disagree: the last seven closes are flat (7-bar return
0%), but the full-series return is +100%. -/
def dfC2 : DF :=
  DF.raw [100, 200, 200, 200, 200, 200, 200, 200] (List.replicate 8 1)

/-- Counterexample for C2 as stated: on `dfC2` the momentum clause awards
2.0 points although the 7-bar-window close return is 0% (not above 0%), so
the clause is not a function of the 7-bar-window return. -/
theorem momentum_window_counterexample :
    momentumPoints dfC2 = .ok 2 ∧
    momentumPointsSpec7 dfC2 = .ok 0 ∧
    ilocQ dfC2.close 1 = .ok 200 ∧ ilocQ dfC2.close 7 = .ok 200 ∧
    momTier ((200 / 200 - 1) * 100) = 0 ∧
    momentumPoints dfC2 ≠ momentumPointsSpec7 dfC2 := by
  refine ⟨by decide, by decide, by decide, by decide, by decide, by decide⟩

/-- C5: wherever `BB_middle` (the 20-bar rolling mean; `period` kept as the
source's parameter) is defined, the Bollinger bands of
`calculate_bollinger_bands` exist and satisfy `BB_lower ≤ BB_middle ≤
BB_upper`, because the band offset is `num_std` times a square root. -/
theorem bollinger_band_order (closes : List ℚ) (period numStd i : ℕ) (m : ℚ)
    (h : rollMeanAt closes period i = some m) :
    ∃ u l : ℝ, bbUpperAt closes period numStd i = some u ∧
      bbLowerAt closes period numStd i = some l ∧
      l ≤ (m : ℝ) ∧ (m : ℝ) ≤ u := by
  have hv : bbVarAt closes period i =
      some (((rollWindow closes period i).map (fun x => (x - m) ^ 2)).sum / (period - 1 : ℚ)) := by
    rw [bbVarAt, h]
  set v : ℚ := ((rollWindow closes period i).map (fun x => (x - m) ^ 2)).sum / (period - 1 : ℚ)
  have hs : bbStdAt closes period i = some (Real.sqrt (v : ℝ)) := by
    simp [bbStdAt, hv]
  have hnn : (0 : ℝ) ≤ Real.sqrt (v : ℝ) * numStd :=
    mul_nonneg (Real.sqrt_nonneg _) (by positivity)
  refine ⟨(m : ℝ) + Real.sqrt (v : ℝ) * numStd, (m : ℝ) - Real.sqrt (v : ℝ) * numStd, ?_, ?_, ?_, ?_⟩
  · rw [bbUpperAt, h, hs]
  · rw [bbLowerAt, h, hs]
  · linarith
  · linarith

/-- Witness for C5 on a flat 20-bar window: the middle band is defined and
the band ordering holds. -/
theorem bollinger_band_order_witness :
    rollMeanAt (List.replicate 20 1) 20 19 = some 1 ∧
    ∃ u l : ℝ, bbUpperAt (List.replicate 20 1) 20 2 19 = some u ∧
      bbLowerAt (List.replicate 20 1) 20 2 19 = some l ∧
      l ≤ ((1 : ℚ) : ℝ) ∧ ((1 : ℚ) : ℝ) ≤ u :=
  ⟨by decide, bollinger_band_order (List.replicate 20 1) 20 2 19 1 (by decide)⟩

/-- Horner-style weighted sums of nonnegative observations with a
nonnegative decay factor stay nonnegative. -/
theorem foldl_horner_nonneg (r : ℚ) (hr : 0 ≤ r) :
    ∀ (xs : List ℚ) (acc : ℚ), 0 ≤ acc → (∀ x ∈ xs, 0 ≤ x) →
      0 ≤ xs.foldl (fun a x => a * r + x) acc := by
  intro xs
  induction xs with
  | nil => intro acc hacc _; exact hacc
  | cons y ys ih =>
    intro acc hacc hmem
    refine ih (acc * r + y) ?_ (fun x hx => hmem x (List.mem_cons_of_mem y hx))
    have hy : 0 ≤ y := hmem y (List.mem_cons_self y ys)
    have := mul_nonneg hacc hr
    linarith

/-- The `wsum` of a list of nonnegative values is nonnegative. -/
theorem wsum_nonneg (r : ℚ) (xs : List ℚ) (hr : 0 ≤ r) (hxs : ∀ x ∈ xs, 0 ≤ x) :
    0 ≤ wsum r xs :=
  foldl_horner_nonneg r hr xs 0 le_rfl hxs

/-- The decay factor `(period-1)/period` of Wilder smoothing is nonnegative. -/
theorem decay_nonneg (period : ℕ) (h : 1 ≤ period) :
    0 ≤ ((period - 1 : ℚ) / period) := by
  apply div_nonneg
  · have : (1 : ℚ) ≤ period := by exact_mod_cast h
    linarith
  · positivity

/-- A defined `ewm(adjust=True)` mean of nonnegative observations is
nonnegative. -/
theorem ewmAdjAt_nonneg (period : ℕ) (obs : List ℚ) (t : ℕ) (hper : 1 ≤ period)
    (hobs : ∀ x ∈ obs, 0 ≤ x) (u : ℚ) (h : ewmAdjAt period obs t = some u) : 0 ≤ u := by
  unfold ewmAdjAt at h
  split_ifs at h with hc
  · have hnum : 0 ≤ wsum ((period - 1 : ℚ) / period) (obs.take t) :=
      wsum_nonneg _ _ (decay_nonneg period hper)
        (fun x hx => hobs x (List.mem_of_mem_take hx))
    have hden : 0 ≤ wsum ((period - 1 : ℚ) / period) (List.replicate t 1) :=
      wsum_nonneg _ _ (decay_nonneg period hper)
        (fun x hx => by rw [List.eq_of_mem_replicate hx]; norm_num)
    rcases Option.some.inj h with rfl
    exact div_nonneg hnum hden

/-- The smoothed up-move average is nonnegative wherever defined. -/
theorem maUpAt_nonneg (period : ℕ) (closes : List ℚ) (t : ℕ) (hper : 1 ≤ period)
    (u : ℚ) (h : maUpAt period closes t = some u) : 0 ≤ u := by
  refine ewmAdjAt_nonneg period (upMoves closes) t hper ?_ u h
  intro x hx
  rcases List.mem_map.mp hx with ⟨d, _, rfl⟩
  exact le_max_right d 0

/-- The smoothed down-move average is nonnegative wherever defined. -/
theorem maDownAt_nonneg (period : ℕ) (closes : List ℚ) (t : ℕ) (hper : 1 ≤ period)
    (d : ℚ) (h : maDownAt period closes t = some d) : 0 ≤ d := by
  refine ewmAdjAt_nonneg period (downMoves closes) t hper ?_ d h
  intro x hx
  rcases List.mem_map.mp hx with ⟨e, _, rfl⟩
  exact le_max_right (-e) 0

/-- Bounds for the RSI formula with nonnegative smoothed averages. -/
theorem rsiValQ_bounds (u d : ℚ) (hu : 0 ≤ u) (hd : 0 ≤ d) (r : ℚ)
    (h : rsiValQ u d = some r) : 0 ≤ r ∧ r ≤ 100 := by
  unfold rsiValQ at h
  by_cases h0 : d = 0
  · rw [if_pos h0] at h
    by_cases hu0 : u = 0
    · rw [if_pos hu0] at h
      exact absurd h (by simp)
    · rw [if_neg hu0] at h
      rcases Option.some.inj h with rfl
      norm_num
  · rw [if_neg h0] at h
    rcases Option.some.inj h with rfl
    have hd' : 0 < d := lt_of_le_of_ne hd (Ne.symm h0)
    have hx : 0 ≤ u / d := div_nonneg hu hd
    have h1 : (0 : ℚ) < 1 + u / d := by linarith
    have h2 : 100 / (1 + u / d) ≤ 100 := by
      rw [div_le_iff₀ h1]
      nlinarith
    have h3 : 0 < 100 / (1 + u / d) := by positivity
    constructor <;> linarith

/-- C4: every defined RSI value of `calculate_rsi` lies in [0, 100]; when
the smoothed down-move average is 0 and the up-move average is positive the
RSI is 100 (the float computation saturates through `inf`), and when both
averages are 0 the RSI is undefined (NaN) rather than an error — the model
is total, mirroring that the source never raises on these cases. -/
theorem rsi_bounds_and_zero_guard (closes : List ℚ) (t : ℕ) (u d : ℚ)
    (hu : maUpAt 14 closes t = some u) (hd : maDownAt 14 closes t = some d) :
    (∀ (t' : ℕ) (r : ℚ), rsiAt 14 closes t' = some r → 0 ≤ r ∧ r ≤ 100) ∧
    (d = 0 → u ≠ 0 → rsiAt 14 closes t = some 100) ∧
    (d = 0 → u = 0 → rsiAt 14 closes t = none) := by
  refine ⟨?_, ?_, ?_⟩
  · intro t' r h
    unfold rsiAt at h
    rcases hu' : maUpAt 14 closes t' with _ | u' <;> rw [hu'] at h
    · exact absurd h (by simp)
    rcases hd' : maDownAt 14 closes t' with _ | d' <;> rw [hd'] at h
    · exact absurd h (by simp)
    exact rsiValQ_bounds u' d'
      (maUpAt_nonneg 14 closes t' (by norm_num) u' hu')
      (maDownAt_nonneg 14 closes t' (by norm_num) d' hd') r h
  · intro h0 hne
    unfold rsiAt
    rw [hu, hd, h0]
    simp [rsiValQ, hne]
  · intro h0 hu0
    unfold rsiAt
    rw [hu, hd, h0, hu0]
    simp [rsiValQ]

/-- Witness for C4 on a flat 16-bar series: both smoothed averages are 0 at
bar 15 and the RSI is undefined there. -/
theorem rsi_bounds_and_zero_guard_witness :
    maUpAt 14 (List.replicate 16 1) 15 = some 0 ∧
    rsiAt 14 (List.replicate 16 1) 15 = none :=
  ⟨by decide,
   (rsi_bounds_and_zero_guard (List.replicate 16 1) 15 0 0 (by decide) (by decide)).2.2 rfl rfl⟩

/-! Flag decomposition of the scorer: each bonus clause of
`calculate_crypto_score` (one row of the spec's point table, with the elif
ladders split into mutually exclusive rows) becomes one Boolean, extracted
by a function performing exactly the same column accesses in the same
order; the score is the weighted sum of the flags. -/

/-- Momentum-clause flags `(>10%, (5,10]%, (0,5]%)` of the full-series
`price_change`. -/
def momFlagsE (df : DF) : Except String (Bool × Bool × Bool) := do
  let last ← ilocQ df.close 1
  let first ← ilocHead df.close
  let pc := (last / first - 1) * 100
  pure (decide (pc > 10), decide (pc > 5 ∧ pc ≤ 10), decide (pc > 0 ∧ pc ≤ 5))

/-- Momentum points from flags. -/
def momAdd (t : Bool × Bool × Bool) : ℚ :=
  (if t.1 then 2 else 0) + (if t.2.1 then 1 else 0) + (if t.2.2 then 1 / 2 else 0)

/-- RSI-clause flags (balanced 40-60, undervalued 30-40, oversold <30). -/
def rsiFlagsE (df : DF) (sel : List String) : Except String (Bool × Bool × Bool) :=
  if "RSI" ∈ sel then do
    let r ← ilocO df.rsi 1
    pure (cLE (some 40) r && cLE r (some 60),
          cLE (some 30) r && cLT r (some 40),
          cLT r (some 30))
  else pure (false, false, false)

/-- RSI points from flags. -/
def rsiAdd (t : Bool × Bool × Bool) : ℚ :=
  (if t.1 then 1 / 2 else 0) + (if t.2.1 then 1 else 0) + (if t.2.2 then 3 / 2 else 0)

/-- MACD-clause flags (position, rising histogram, recent cross). -/
def macdFlagsE (df : DF) (sel : List String) : Except String (Bool × Bool × Bool) :=
  if "MACD" ∈ sel then do
    let m1 ← ilocO df.macd 1
    let s1 ← ilocO df.macdSignal 1
    let h1 ← ilocO df.macdHist 1
    let h2 ← ilocO df.macdHist 2
    let c3 ← if cGT m1 s1 then do
        let m2 ← ilocO df.macd 2
        let s2 ← ilocO df.macdSignal 2
        pure (cLE m2 s2)
      else pure false
    pure (cGT m1 s1, cGT h1 h2, c3)
  else pure (false, false, false)

/-- MACD points from flags. -/
def macdAdd (t : Bool × Bool × Bool) : ℚ :=
  (if t.1 then 1 else 0) + (if t.2.1 then 1 / 2 else 0) + (if t.2.2 then 3 / 2 else 0)

/-- Bollinger-clause flags (near lower band, bounce). -/
def bbFlagsE (df : DF) (sel : List String) : Except String (Bool × Bool) :=
  if "Bollinger Bands" ∈ sel then do
    let c1 ← ilocQ df.close 1
    let l1 ← ilocO df.bbLower 1
    let c2 ← ilocQ df.close 2
    let b2 ← if c1 > c2 then do
        let l2 ← ilocO df.bbLower 2
        pure (cLT (some c2) l2)
      else pure false
    pure (cLT (some c1) (scaleCell l1 (21 / 20)), b2)
  else pure (false, false)

/-- Bollinger points from flags. -/
def bbAdd (t : Bool × Bool) : ℚ :=
  (if t.1 then 1 else 0) + (if t.2 then 3 / 2 else 0)

/-- EMA-clause flags (position, recent cross). -/
def emaFlagsE (df : DF) (sel : List String) : Except String (Bool × Bool) :=
  if "EMA" ∈ sel then do
    let e1 ← ilocO df.ema20 1
    let f1 ← ilocO df.ema50 1
    let b2 ← if cGT e1 f1 then do
        let e2 ← ilocO df.ema20 2
        let f2 ← ilocO df.ema50 2
        pure (cLE e2 f2)
      else pure false
    pure (cGT e1 f1, b2)
  else pure (false, false)

/-- EMA points from flags. -/
def emaAdd (t : Bool × Bool) : ℚ :=
  (if t.1 then 1 else 0) + (if t.2 then 3 / 2 else 0)

/-- SMA-clause flags (price above both SMAs, position, recent Golden
Cross). -/
def smaFlagsE (df : DF) (sel : List String) : Except String (Bool × Bool × Bool) :=
  if "SMA" ∈ sel then do
    let c ← ilocQ df.close 1
    let s50 ← ilocO df.sma50 1
    let s200 ← ilocO df.sma200 1
    let c3 ← if cGT s50 s200 then do
        let a ← ilocO df.sma50 20
        let b ← ilocO df.sma200 20
        pure (cLE a b)
      else pure false
    pure (cGT (some c) s50 && cGT (some c) s200, cGT s50 s200, c3)
  else pure (false, false, false)

/-- SMA points from flags. -/
def smaAdd (t : Bool × Bool × Bool) : ℚ :=
  (if t.1 then 1 else 0) + (if t.2.1 then 1 else 0) + (if t.2.2 then 2 else 0)

/-- Volume-clause flags (ratio above 1.5, ratio in (1.2, 1.5]); total,
like the `try/except`-guarded volume block. -/
def volFlags (vol : List ℚ) : Bool × Bool :=
  match vol.getLast? with
  | none => (false, false)
  | some v =>
    match volRollMeanLast vol with
    | none => (false, false)
    | some m =>
      if m > 0 then
        (decide (v / m > 3 / 2), decide (v / m > 6 / 5 ∧ v / m ≤ 3 / 2))
      else (false, false)

/-- Volume points from flags. -/
def volAdd (t : Bool × Bool) : ℚ :=
  (if t.1 then 1 else 0) + (if t.2 then 1 / 2 else 0)

/-- The momentum `elif` ladder equals the additive form over the three
mutually exclusive tier flags. -/
theorem momTier_add (pc : ℚ) :
    momTier pc =
      momAdd (decide (pc > 10), decide (pc > 5 ∧ pc ≤ 10), decide (pc > 0 ∧ pc ≤ 5)) := by
  unfold momTier momAdd
  by_cases h1 : pc > 10
  · have h2 : ¬(pc > 5 ∧ pc ≤ 10) := by rintro ⟨_, h⟩; linarith
    have h3 : ¬(pc > 0 ∧ pc ≤ 5) := by rintro ⟨_, h⟩; linarith
    simp [h1, h2, h3]
  by_cases h2 : pc > 5
  · have hb : pc > 5 ∧ pc ≤ 10 := ⟨h2, by linarith⟩
    have h3 : ¬(pc > 0 ∧ pc ≤ 5) := by rintro ⟨_, h⟩; linarith
    simp [h1, h2, hb, h3]
  by_cases h3 : pc > 0
  · have hc : pc > 0 ∧ pc ≤ 5 := ⟨h3, by linarith⟩
    have hb : ¬(pc > 5 ∧ pc ≤ 10) := by rintro ⟨h, _⟩; exact h2 h
    simp [h1, hb, hc]
  · have hb : ¬(pc > 5 ∧ pc ≤ 10) := by rintro ⟨h, _⟩; exact h2 h
    have hc : ¬(pc > 0 ∧ pc ≤ 5) := by rintro ⟨h, _⟩; exact h3 h
    simp [h1, hb, hc, h3]
    linarith

/-- The momentum block equals the flag decomposition. -/
theorem momentum_rep (df : DF) : momentumPoints df = (momFlagsE df).map momAdd := by
  unfold momentumPoints momFlagsE
  cases h1 : ilocQ df.close 1 with
  | error e => simp
  | ok last =>
    cases h0 : ilocHead df.close with
    | error e => simp
    | ok first => simpa using momTier_add ((last / first - 1) * 100)

/-- The RSI `elif` ladder equals the additive form over its three mutually
exclusive range flags. -/
theorem rsiTier_add (r : Option ℚ) :
    (if cLE (some 40) r && cLE r (some 60) then (1 / 2 : ℚ)
     else if cLE (some 30) r && cLT r (some 40) then 1
     else if cLT r (some 30) then 3 / 2
     else 0) =
    rsiAdd (cLE (some 40) r && cLE r (some 60),
            cLE (some 30) r && cLT r (some 40),
            cLT r (some 30)) := by
  cases r with
  | none => simp [cLE, cLT, rsiAdd]
  | some x =>
    simp only [cLE, cLT, rsiAdd]
    by_cases h1 : (40 : ℚ) ≤ x <;> by_cases h2 : x ≤ 60 <;> by_cases h3 : (30 : ℚ) ≤ x <;>
      by_cases h4 : x < 40 <;> by_cases h5 : x < 30 <;>
      simp [h1, h2, h3, h4, h5] <;> linarith

/-- The RSI block equals the flag decomposition. -/
theorem rsi_rep (df : DF) (sel : List String) :
    rsiPoints df sel = (rsiFlagsE df sel).map rsiAdd := by
  unfold rsiPoints rsiFlagsE
  by_cases hsel : "RSI" ∈ sel
  · rw [if_pos hsel, if_pos hsel]
    cases h1 : ilocO df.rsi 1 with
    | error e => simp
    | ok r => simpa using rsiTier_add r
  · rw [if_neg hsel, if_neg hsel]
    simp [rsiAdd]

/-- The MACD block equals the flag decomposition. -/
theorem macd_rep (df : DF) (sel : List String) :
    macdPoints df sel = (macdFlagsE df sel).map macdAdd := by
  unfold macdPoints macdFlagsE
  by_cases hsel : "MACD" ∈ sel
  · rw [if_pos hsel, if_pos hsel]
    cases hm1 : ilocO df.macd 1 with
    | error e => simp
    | ok m1 =>
      cases hs1 : ilocO df.macdSignal 1 with
      | error e => simp
      | ok s1 =>
        cases hh1 : ilocO df.macdHist 1 with
        | error e => simp
        | ok h1 =>
          cases hh2 : ilocO df.macdHist 2 with
          | error e => simp
          | ok h2 =>
            by_cases hgt : cGT m1 s1 = true
            · simp only [exceptBind_ok, hgt, if_true]
              cases hm2 : ilocO df.macd 2 with
              | error e => simp
              | ok m2 =>
                cases hs2 : ilocO df.macdSignal 2 with
                | error e => simp
                | ok s2 => simp [macdAdd, hgt]
            · simp only [exceptBind_ok, hgt, if_false, Bool.false_eq_true]
              simp [macdAdd, hgt]
  · rw [if_neg hsel, if_neg hsel]
    simp [macdAdd]

/-- The Bollinger block equals the flag decomposition. -/
theorem bb_rep (df : DF) (sel : List String) :
    bbPoints df sel = (bbFlagsE df sel).map bbAdd := by
  unfold bbPoints bbFlagsE
  by_cases hsel : "Bollinger Bands" ∈ sel
  · rw [if_pos hsel, if_pos hsel]
    cases hc1 : ilocQ df.close 1 with
    | error e => simp
    | ok c1 =>
      cases hl1 : ilocO df.bbLower 1 with
      | error e => simp
      | ok l1 =>
        cases hc2 : ilocQ df.close 2 with
        | error e => simp
        | ok c2 =>
          by_cases hgt : c1 > c2
          · simp only [exceptBind_ok, hgt, if_true]
            cases hl2 : ilocO df.bbLower 2 with
            | error e => simp
            | ok l2 => simp [bbAdd]
          · simp only [exceptBind_ok, hgt, if_false]
            simp [bbAdd, hgt]
  · rw [if_neg hsel, if_neg hsel]
    simp [bbAdd]

/-- The EMA block equals the flag decomposition. -/
theorem ema_rep (df : DF) (sel : List String) :
    emaPoints df sel = (emaFlagsE df sel).map emaAdd := by
  unfold emaPoints emaFlagsE
  by_cases hsel : "EMA" ∈ sel
  · rw [if_pos hsel, if_pos hsel]
    cases he1 : ilocO df.ema20 1 with
    | error e => simp
    | ok e1 =>
      cases hf1 : ilocO df.ema50 1 with
      | error e => simp
      | ok f1 =>
        by_cases hgt : cGT e1 f1 = true
        · simp only [exceptBind_ok, hgt, if_true]
          cases he2 : ilocO df.ema20 2 with
          | error e => simp
          | ok e2 =>
            cases hf2 : ilocO df.ema50 2 with
            | error e => simp
            | ok f2 => simp [emaAdd, hgt]
        · simp only [exceptBind_ok, hgt, if_false, Bool.false_eq_true]
          simp [emaAdd, hgt]
  · rw [if_neg hsel, if_neg hsel]
    simp [emaAdd]

/-- The SMA block equals the flag decomposition. -/
theorem sma_rep (df : DF) (sel : List String) :
    smaPoints df sel = (smaFlagsE df sel).map smaAdd := by
  unfold smaPoints smaFlagsE
  by_cases hsel : "SMA" ∈ sel
  · rw [if_pos hsel, if_pos hsel]
    cases hc : ilocQ df.close 1 with
    | error e => simp
    | ok c =>
      cases h50 : ilocO df.sma50 1 with
      | error e => simp
      | ok s50 =>
        cases h200 : ilocO df.sma200 1 with
        | error e => simp
        | ok s200 =>
          by_cases hgt : cGT s50 s200 = true
          · simp only [exceptBind_ok, hgt, if_true]
            cases ha : ilocO df.sma50 20 with
            | error e => simp
            | ok a =>
              cases hb : ilocO df.sma200 20 with
              | error e => simp
              | ok b => simp [smaAdd, hgt]
          · simp only [exceptBind_ok, hgt, if_false, Bool.false_eq_true]
            simp [smaAdd, hgt]
  · rw [if_neg hsel, if_neg hsel]
    simp [smaAdd]

/-- The (total) volume block equals the flag decomposition. -/
theorem vol_rep (vol : List ℚ) : volumePoints vol = volAdd (volFlags vol) := by
  unfold volumePoints volFlags
  cases hv : vol.getLast? with
  | none => simp [volAdd]
  | some v =>
    cases hm : volRollMeanLast vol with
    | none => simp [volAdd]
    | some m =>
      dsimp only
      by_cases hm0 : m > 0
      · rw [if_pos hm0, if_pos hm0]
        by_cases h1 : v / m > 3 / 2
        · have h2 : ¬(v / m > 6 / 5 ∧ v / m ≤ 3 / 2) := by rintro ⟨_, h⟩; linarith
          simp [volAdd, h1, h2]
        by_cases h2 : v / m > 6 / 5
        · have hb : v / m > 6 / 5 ∧ v / m ≤ 3 / 2 := ⟨h2, by linarith⟩
          simp [volAdd, h1, h2, hb]
        · have hb : ¬(v / m > 6 / 5 ∧ v / m ≤ 3 / 2) := by rintro ⟨h, _⟩; exact h2 h
          simp [volAdd, h1, h2, hb]
      · rw [if_neg hm0, if_neg hm0]
        simp [volAdd]

/-- One Boolean per bonus clause of the scorer (18 clauses). -/
structure Flags where
  mom10 : Bool
  mom5 : Bool
  mom0 : Bool
  rsiBal : Bool
  rsiUnder : Bool
  rsiOver : Bool
  macdPos : Bool
  macdHistUp : Bool
  macdCrossUp : Bool
  bbNearLow : Bool
  bbBounce : Bool
  emaPos : Bool
  emaCrossUp : Bool
  smaPriceAbove : Bool
  smaPos : Bool
  smaGolden : Bool
  volHigh : Bool
  volMed : Bool
deriving DecidableEq

/-- Clause flags of `calculate_crypto_score`, extracted with exactly the
scorer's accesses in the scorer's order. -/
def flagsOf (df : DF) (sel : List String) : Except String Flags := do
  let t1 ← momFlagsE df
  let t2 ← rsiFlagsE df sel
  let t3 ← macdFlagsE df sel
  let t4 ← bbFlagsE df sel
  let t5 ← emaFlagsE df sel
  let t6 ← smaFlagsE df sel
  let t7 := volFlags df.volume
  pure ⟨t1.1, t1.2.1, t1.2.2, t2.1, t2.2.1, t2.2.2, t3.1, t3.2.1, t3.2.2,
        t4.1, t4.2, t5.1, t5.2, t6.1, t6.2.1, t6.2.2, t7.1, t7.2⟩

/-- Points contributed by one flag. -/
def bq (b : Bool) (w : ℚ) : ℚ := if b then w else 0

/-- The scorer's value as the weighted sum of its 18 clause flags (the
weights are the spec's point table). -/
def scoreOfFlags (f : Flags) : ℚ :=
  bq f.mom10 2 + bq f.mom5 1 + bq f.mom0 (1 / 2) +
  bq f.rsiBal (1 / 2) + bq f.rsiUnder 1 + bq f.rsiOver (3 / 2) +
  bq f.macdPos 1 + bq f.macdHistUp (1 / 2) + bq f.macdCrossUp (3 / 2) +
  bq f.bbNearLow 1 + bq f.bbBounce (3 / 2) +
  bq f.emaPos 1 + bq f.emaCrossUp (3 / 2) +
  bq f.smaPriceAbove 1 + bq f.smaPos 1 + bq f.smaGolden 2 +
  bq f.volHigh 1 + bq f.volMed (1 / 2)

/-- The scorer is exactly the weighted flag sum. -/
theorem score_rep (df : DF) (sel : List String) :
    calculate_crypto_score df sel = (flagsOf df sel).map scoreOfFlags := by
  unfold calculate_crypto_score flagsOf
  rw [momentum_rep, rsi_rep, macd_rep, bb_rep, ema_rep, sma_rep]
  cases h1 : momFlagsE df with
  | error e => simp
  | ok t1 =>
    cases h2 : rsiFlagsE df sel with
    | error e => simp
    | ok t2 =>
      cases h3 : macdFlagsE df sel with
      | error e => simp
      | ok t3 =>
        cases h4 : bbFlagsE df sel with
        | error e => simp
        | ok t4 =>
          cases h5 : emaFlagsE df sel with
          | error e => simp
          | ok t5 =>
            cases h6 : smaFlagsE df sel with
            | error e => simp
            | ok t6 =>
              simp only [exceptMap_ok, exceptBind_ok, exceptPure_eq, Except.ok.injEq]
              rw [vol_rep]
              unfold momAdd rsiAdd macdAdd bbAdd emaAdd smaAdd volAdd scoreOfFlags bq
              ring

/-- Pointwise order on clause flags: `f ≤ g` when every clause satisfied in
`f` is satisfied in `g`. -/
def Flags.le (f g : Flags) : Prop :=
  (f.mom10 = true → g.mom10 = true) ∧ (f.mom5 = true → g.mom5 = true) ∧
  (f.mom0 = true → g.mom0 = true) ∧ (f.rsiBal = true → g.rsiBal = true) ∧
  (f.rsiUnder = true → g.rsiUnder = true) ∧ (f.rsiOver = true → g.rsiOver = true) ∧
  (f.macdPos = true → g.macdPos = true) ∧ (f.macdHistUp = true → g.macdHistUp = true) ∧
  (f.macdCrossUp = true → g.macdCrossUp = true) ∧ (f.bbNearLow = true → g.bbNearLow = true) ∧
  (f.bbBounce = true → g.bbBounce = true) ∧ (f.emaPos = true → g.emaPos = true) ∧
  (f.emaCrossUp = true → g.emaCrossUp = true) ∧
  (f.smaPriceAbove = true → g.smaPriceAbove = true) ∧
  (f.smaPos = true → g.smaPos = true) ∧ (f.smaGolden = true → g.smaGolden = true) ∧
  (f.volHigh = true → g.volHigh = true) ∧ (f.volMed = true → g.volMed = true)

/-- A clause's contribution is nonnegative (for nonnegative weight). -/
theorem bq_nonneg (b : Bool) (w : ℚ) (hw : 0 ≤ w) : 0 ≤ bq b w := by
  cases b <;> simp [bq, hw]

/-- A clause's contribution is monotone in its flag. -/
theorem bq_mono {b c : Bool} (h : b = true → c = true) (w : ℚ) (hw : 0 ≤ w) :
    bq b w ≤ bq c w := by
  cases b with
  | false =>
    cases c <;> simp [bq, hw]
  | true =>
    rw [h rfl]

/-- The weighted flag sum is nonnegative. -/
theorem scoreOfFlags_nonneg (f : Flags) : 0 ≤ scoreOfFlags f := by
  unfold scoreOfFlags
  have h1 := bq_nonneg f.mom10 2 (by norm_num)
  have h2 := bq_nonneg f.mom5 1 (by norm_num)
  have h3 := bq_nonneg f.mom0 (1 / 2) (by norm_num)
  have h4 := bq_nonneg f.rsiBal (1 / 2) (by norm_num)
  have h5 := bq_nonneg f.rsiUnder 1 (by norm_num)
  have h6 := bq_nonneg f.rsiOver (3 / 2) (by norm_num)
  have h7 := bq_nonneg f.macdPos 1 (by norm_num)
  have h8 := bq_nonneg f.macdHistUp (1 / 2) (by norm_num)
  have h9 := bq_nonneg f.macdCrossUp (3 / 2) (by norm_num)
  have h10 := bq_nonneg f.bbNearLow 1 (by norm_num)
  have h11 := bq_nonneg f.bbBounce (3 / 2) (by norm_num)
  have h12 := bq_nonneg f.emaPos 1 (by norm_num)
  have h13 := bq_nonneg f.emaCrossUp (3 / 2) (by norm_num)
  have h14 := bq_nonneg f.smaPriceAbove 1 (by norm_num)
  have h15 := bq_nonneg f.smaPos 1 (by norm_num)
  have h16 := bq_nonneg f.smaGolden 2 (by norm_num)
  have h17 := bq_nonneg f.volHigh 1 (by norm_num)
  have h18 := bq_nonneg f.volMed (1 / 2) (by norm_num)
  linarith

/-- C7: the Score of `calculate_crypto_score` is the weighted sum of its 18
individually-satisfied bonus-clause flags (weights = point table), it is
non-negative whenever the call returns, and the flag sum is monotonically
non-decreasing in the set of satisfied clauses: turning more clause flags on
(the others unchanged) never lowers the score. -/
theorem score_nonneg_monotone :
    (∀ (df : DF) (sel : List String),
      calculate_crypto_score df sel = (flagsOf df sel).map scoreOfFlags) ∧
    (∀ (df : DF) (sel : List String) (r : ℚ),
      calculate_crypto_score df sel = .ok r → 0 ≤ r) ∧
    (∀ f g : Flags, Flags.le f g → scoreOfFlags f ≤ scoreOfFlags g) := by
  refine ⟨score_rep, ?_, ?_⟩
  · intro df sel r h
    rw [score_rep] at h
    cases hf : flagsOf df sel with
    | error e => rw [hf] at h; exact absurd h (by simp)
    | ok f =>
      rw [hf, exceptMap_ok] at h
      rcases Except.ok.inj h with rfl
      exact scoreOfFlags_nonneg f
  · intro f g hle
    obtain ⟨l1, l2, l3, l4, l5, l6, l7, l8, l9, l10, l11, l12, l13, l14, l15, l16, l17, l18⟩ := hle
    unfold scoreOfFlags
    have h1 := bq_mono l1 2 (by norm_num)
    have h2 := bq_mono l2 1 (by norm_num)
    have h3 := bq_mono l3 (1 / 2) (by norm_num)
    have h4 := bq_mono l4 (1 / 2) (by norm_num)
    have h5 := bq_mono l5 1 (by norm_num)
    have h6 := bq_mono l6 (3 / 2) (by norm_num)
    have h7 := bq_mono l7 1 (by norm_num)
    have h8 := bq_mono l8 (1 / 2) (by norm_num)
    have h9 := bq_mono l9 (3 / 2) (by norm_num)
    have h10 := bq_mono l10 1 (by norm_num)
    have h11 := bq_mono l11 (3 / 2) (by norm_num)
    have h12 := bq_mono l12 1 (by norm_num)
    have h13 := bq_mono l13 (3 / 2) (by norm_num)
    have h14 := bq_mono l14 1 (by norm_num)
    have h15 := bq_mono l15 1 (by norm_num)
    have h16 := bq_mono l16 2 (by norm_num)
    have h17 := bq_mono l17 1 (by norm_num)
    have h18 := bq_mono l18 (1 / 2) (by norm_num)
    linarith

/-- Witness for C7: a concrete scorer run returns 2 (hence ≥ 0), and the
all-false flag vector scores no more than the all-true one. -/
theorem score_nonneg_monotone_witness :
    (0 : ℚ) ≤ 2 ∧
    scoreOfFlags ⟨false, false, false, false, false, false, false, false, false,
      false, false, false, false, false, false, false, false, false⟩ ≤
    scoreOfFlags ⟨true, true, true, true, true, true, true, true, true,
      true, true, true, true, true, true, true, true, true⟩ :=
  ⟨score_nonneg_monotone.2.1 (DF.raw [1, 2] [1, 1]) [] 2 (by decide),
   score_nonneg_monotone.2.2 _ _ (by unfold Flags.le; decide)⟩

/-! Infrastructure for the insufficient-history analysis (C3): column
lengths of the pipeline DataFrame and the guards protecting every
conditional `iloc` access. -/

/-- `ewmRec` preserves length. -/
theorem ewmRec_length (α : ℚ) : ∀ (prev : ℚ) (xs : List ℚ),
    (ewmRec α prev xs).length = xs.length := by
  intro prev xs
  induction xs generalizing prev with
  | nil => rfl
  | cons x rest ih => simp [ewmRec, ih]

/-- `emaCol` preserves length. -/
theorem emaCol_length (span : ℕ) (xs : List ℚ) : (emaCol span xs).length = xs.length := by
  cases xs with
  | nil => rfl
  | cons x rest => simp [emaCol, ewmRec_length]

/-- `macdCol` preserves length. -/
theorem macdCol_length (c : List ℚ) : (macdCol c).length = c.length := by
  simp [macdCol, emaCol_length]

/-- `macdSignalCol` preserves length. -/
theorem macdSignalCol_length (c : List ℚ) : (macdSignalCol c).length = c.length := by
  simp [macdSignalCol, emaCol_length, macdCol_length]

/-- `macdHistCol` preserves length. -/
theorem macdHistCol_length (c : List ℚ) : (macdHistCol c).length = c.length := by
  simp [macdHistCol, macdCol_length, macdSignalCol_length]

/-- `rsiCol` preserves length. -/
theorem rsiCol_length (c : List ℚ) : (rsiCol c).length = c.length := by
  simp [rsiCol]

/-- `smaCol` preserves length. -/
theorem smaCol_length (period : ℕ) (c : List ℚ) : (smaCol period c).length = c.length := by
  simp [smaCol]

/-- A defined rolling mean pins down the warm-up and the row bound. -/
theorem rollMeanAt_some (c : List ℚ) (period k : ℕ) (m : ℚ)
    (h : rollMeanAt c period k = some m) : period ≤ k + 1 ∧ k < c.length := by
  unfold rollMeanAt at h
  split_ifs at h with hc
  exact hc

/-- In-range access on a NaN-free column succeeds. -/
theorem ilocQ_ok (xs : List ℚ) (k : ℕ) (h1 : 0 < k) (h2 : k ≤ xs.length) :
    ∃ v, ilocQ xs k = .ok v :=
  ⟨_, dif_pos ⟨h1, h2⟩⟩

/-- In-range access on a possibly-NaN column succeeds. -/
theorem ilocO_ok (xs : List (Option ℚ)) (k : ℕ) (h1 : 0 < k) (h2 : k ≤ xs.length) :
    ∃ v, ilocO xs k = .ok v :=
  ⟨_, dif_pos ⟨h1, h2⟩⟩

/-- Head access on a nonempty column succeeds. -/
theorem ilocHead_ok (xs : List ℚ) (h : 1 ≤ xs.length) : ∃ v, ilocHead xs = .ok v := by
  cases xs with
  | nil => simp at h
  | cons x rest => exact ⟨x, rfl⟩

/-- The last cell of an SMA column is the rolling mean at the last row. -/
theorem ilocO_smaCol_last (period : ℕ) (c : List ℚ) (h : 1 ≤ c.length) :
    ilocO (smaCol period c) 1 = .ok (rollMeanAt c period (c.length - 1)) := by
  have hlen : (smaCol period c).length = c.length := smaCol_length period c
  rw [ilocO, dif_pos ⟨one_pos, by omega⟩]
  congr 1
  simp only [smaCol, List.get_eq_getElem, List.getElem_map, List.getElem_range, hlen,
    List.length_map, List.length_range]

/-- A true NaN-aware `>` forces both operands defined. -/
theorem cGT_eq_true (a b : Option ℚ) (h : cGT a b = true) :
    ∃ x y, a = some x ∧ b = some y ∧ y < x := by
  cases a <;> cases b <;> simp_all [cGT]

/-- A true NaN-aware `<` forces both operands defined. -/
theorem cLT_eq_true (a b : Option ℚ) (h : cLT a b = true) :
    ∃ x y, a = some x ∧ b = some y ∧ x < y := by
  cases a <;> cases b <;> simp_all [cLT]

/-- When the latest `SMA_200` comparison can fire at all, 20 bars exist:
`SMA_200` defined at the last row forces at least 200 (hence 20) bars. -/
theorem sma200_guard (c : List ℚ) (y : ℚ) (h1 : 1 ≤ c.length)
    (hy : rollMeanAt c 200 (c.length - 1) = some y) : 20 ≤ c.length := by
  rcases rollMeanAt_some c 200 (c.length - 1) y hy with ⟨hp, _⟩
  omega

/-- Base close column of the pipeline DataFrame. -/
@[simp] theorem mkDF_close (c v : List ℚ) (s : List (Option ℚ)) : (mkDF c v s).close = c := rfl

/-- Base volume column of the pipeline DataFrame. -/
@[simp] theorem mkDF_volume (c v : List ℚ) (s : List (Option ℚ)) : (mkDF c v s).volume = v := rfl

/-- RSI column of the pipeline DataFrame. -/
@[simp] theorem mkDF_rsi (c v : List ℚ) (s : List (Option ℚ)) : (mkDF c v s).rsi = rsiCol c := rfl

/-- MACD column of the pipeline DataFrame. -/
@[simp] theorem mkDF_macd (c v : List ℚ) (s : List (Option ℚ)) :
    (mkDF c v s).macd = (macdCol c).map some := rfl

/-- MACD signal column of the pipeline DataFrame. -/
@[simp] theorem mkDF_macdSignal (c v : List ℚ) (s : List (Option ℚ)) :
    (mkDF c v s).macdSignal = (macdSignalCol c).map some := rfl

/-- MACD histogram column of the pipeline DataFrame. -/
@[simp] theorem mkDF_macdHist (c v : List ℚ) (s : List (Option ℚ)) :
    (mkDF c v s).macdHist = (macdHistCol c).map some := rfl

/-- Lower Bollinger column of the pipeline DataFrame. -/
@[simp] theorem mkDF_bbLower (c v : List ℚ) (s : List (Option ℚ)) :
    (mkDF c v s).bbLower = List.zipWith (fun m sd =>
      match m, sd with
      | some m, some sd => some (m - sd * 2)
      | _, _ => none) ((List.range c.length).map (fun i => rollMeanAt c 20 i)) s := rfl

/-- Upper Bollinger column of the pipeline DataFrame. -/
@[simp] theorem mkDF_bbUpper (c v : List ℚ) (s : List (Option ℚ)) :
    (mkDF c v s).bbUpper = List.zipWith (fun m sd =>
      match m, sd with
      | some m, some sd => some (m + sd * 2)
      | _, _ => none) ((List.range c.length).map (fun i => rollMeanAt c 20 i)) s := rfl

/-- SMA_50 column of the pipeline DataFrame. -/
@[simp] theorem mkDF_sma50 (c v : List ℚ) (s : List (Option ℚ)) :
    (mkDF c v s).sma50 = smaCol 50 c := rfl

/-- SMA_200 column of the pipeline DataFrame. -/
@[simp] theorem mkDF_sma200 (c v : List ℚ) (s : List (Option ℚ)) :
    (mkDF c v s).sma200 = smaCol 200 c := rfl

/-- EMA_20 column of the pipeline DataFrame. -/
@[simp] theorem mkDF_ema20 (c v : List ℚ) (s : List (Option ℚ)) :
    (mkDF c v s).ema20 = (emaCol 20 c).map some := rfl

/-- EMA_50 column of the pipeline DataFrame. -/
@[simp] theorem mkDF_ema50 (c v : List ℚ) (s : List (Option ℚ)) :
    (mkDF c v s).ema50 = (emaCol 50 c).map some := rfl

/-- The momentum block never raises on a nonempty series. -/
theorem momentumPoints_ok (df : DF) (h1 : 1 ≤ df.close.length) :
    ∃ r, momentumPoints df = .ok r := by
  obtain ⟨a, ha⟩ := ilocQ_ok df.close 1 one_pos h1
  obtain ⟨b, hb⟩ := ilocHead_ok df.close h1
  exact ⟨_, by simp [momentumPoints, ha, hb]; rfl⟩

/-- The RSI score block never raises on a nonempty RSI column. -/
theorem rsiPoints_ok (df : DF) (sel : List String) (h : 1 ≤ df.rsi.length) :
    ∃ r, rsiPoints df sel = .ok r := by
  by_cases hsel : "RSI" ∈ sel
  · obtain ⟨a, ha⟩ := ilocO_ok df.rsi 1 one_pos h
    exact ⟨_, by simp [rsiPoints, hsel, ha]; rfl⟩
  · exact ⟨0, by simp [rsiPoints, hsel]⟩

/-- The MACD score block never raises once two bars exist. -/
theorem macdPoints_ok (df : DF) (sel : List String) (hm : 2 ≤ df.macd.length)
    (hs : 2 ≤ df.macdSignal.length) (hh : 2 ≤ df.macdHist.length) :
    ∃ r, macdPoints df sel = .ok r := by
  by_cases hsel : "MACD" ∈ sel
  · obtain ⟨m1, hm1⟩ := ilocO_ok df.macd 1 one_pos (by omega)
    obtain ⟨s1, hs1⟩ := ilocO_ok df.macdSignal 1 one_pos (by omega)
    obtain ⟨h1, hh1⟩ := ilocO_ok df.macdHist 1 one_pos (by omega)
    obtain ⟨h2, hh2⟩ := ilocO_ok df.macdHist 2 (by norm_num) hh
    obtain ⟨m2, hm2⟩ := ilocO_ok df.macd 2 (by norm_num) hm
    obtain ⟨s2, hs2⟩ := ilocO_ok df.macdSignal 2 (by norm_num) hs
    by_cases hgt : cGT m1 s1 = true
    · exact ⟨_, by simp [macdPoints, hsel, hm1, hs1, hh1, hh2, hm2, hs2, hgt]; rfl⟩
    · exact ⟨_, by simp [macdPoints, hsel, hm1, hs1, hh1, hh2, hgt]; rfl⟩
  · exact ⟨0, by simp [macdPoints, hsel]⟩

/-- The Bollinger score block never raises once two bars exist. -/
theorem bbPoints_ok (df : DF) (sel : List String) (hc : 2 ≤ df.close.length)
    (hl : 2 ≤ df.bbLower.length) : ∃ r, bbPoints df sel = .ok r := by
  by_cases hsel : "Bollinger Bands" ∈ sel
  · obtain ⟨c1, hc1⟩ := ilocQ_ok df.close 1 one_pos (by omega)
    obtain ⟨l1, hl1⟩ := ilocO_ok df.bbLower 1 one_pos (by omega)
    obtain ⟨c2, hc2⟩ := ilocQ_ok df.close 2 (by norm_num) hc
    obtain ⟨l2, hl2⟩ := ilocO_ok df.bbLower 2 (by norm_num) hl
    by_cases hgt : c1 > c2
    · exact ⟨_, by simp [bbPoints, hsel, hc1, hl1, hc2, hl2, hgt]; rfl⟩
    · exact ⟨_, by simp [bbPoints, hsel, hc1, hl1, hc2, hgt]; rfl⟩
  · exact ⟨0, by simp [bbPoints, hsel]⟩

/-- The EMA score block never raises once two bars exist. -/
theorem emaPoints_ok (df : DF) (sel : List String) (he : 2 ≤ df.ema20.length)
    (hf : 2 ≤ df.ema50.length) : ∃ r, emaPoints df sel = .ok r := by
  by_cases hsel : "EMA" ∈ sel
  · obtain ⟨e1, he1⟩ := ilocO_ok df.ema20 1 one_pos (by omega)
    obtain ⟨f1, hf1⟩ := ilocO_ok df.ema50 1 one_pos (by omega)
    obtain ⟨e2, he2⟩ := ilocO_ok df.ema20 2 (by norm_num) he
    obtain ⟨f2, hf2⟩ := ilocO_ok df.ema50 2 (by norm_num) hf
    by_cases hgt : cGT e1 f1 = true
    · exact ⟨_, by simp [emaPoints, hsel, he1, hf1, he2, hf2, hgt]; rfl⟩
    · exact ⟨_, by simp [emaPoints, hsel, he1, hf1, hgt]; rfl⟩
  · exact ⟨0, by simp [emaPoints, hsel]⟩

/-- The SMA score block never raises on the pipeline DataFrame: its
`iloc[-20]` reads happen only under `SMA_50 > SMA_200`, which forces a
defined `SMA_200`, hence 200 (≥ 20) bars. -/
theorem smaPoints_ok (c v : List ℚ) (s : List (Option ℚ)) (sel : List String)
    (h1 : 1 ≤ c.length) : ∃ r, smaPoints (mkDF c v s) sel = .ok r := by
  by_cases hsel : "SMA" ∈ sel
  · have h50 := ilocO_smaCol_last 50 c h1
    have h200 := ilocO_smaCol_last 200 c h1
    obtain ⟨p, hp⟩ := ilocQ_ok c 1 one_pos h1
    by_cases hgt : cGT (rollMeanAt c 50 (c.length - 1)) (rollMeanAt c 200 (c.length - 1)) = true
    · rcases cGT_eq_true _ _ hgt with ⟨x, y, _, hy, _⟩
      have h20 : 20 ≤ c.length := sma200_guard c y h1 hy
      obtain ⟨a, ha⟩ := ilocO_ok (smaCol 50 c) 20 (by norm_num)
        (by rw [smaCol_length]; exact h20)
      obtain ⟨b, hb⟩ := ilocO_ok (smaCol 200 c) 20 (by norm_num)
        (by rw [smaCol_length]; exact h20)
      exact ⟨_, by simp [smaPoints, hsel, hp, h50, h200, hgt, ha, hb]; rfl⟩
    · exact ⟨_, by simp [smaPoints, hsel, hp, h50, h200, hgt]; rfl⟩
  · exact ⟨0, by simp [smaPoints, hsel]⟩

/-- The RSI consolidator block never raises on a nonempty RSI column. -/
theorem rsiVotes_ok (df : DF) (sel : List String) (h : 1 ≤ df.rsi.length) :
    ∃ out, rsiVotes df sel = .ok out := by
  by_cases hsel : "RSI" ∈ sel
  · obtain ⟨a, ha⟩ := ilocO_ok df.rsi 1 one_pos h
    exact ⟨_, by simp [rsiVotes, hsel, ha]; rfl⟩
  · exact ⟨(0, 0, 0), by simp [rsiVotes, hsel]⟩

/-- The Bollinger consolidator block never raises on a nonempty pipeline
DataFrame. -/
theorem bbVotes_ok (c v : List ℚ) (s : List (Option ℚ)) (sel : List String)
    (h1 : 1 ≤ c.length) (hs : s.length = c.length) :
    ∃ out, bbVotes (mkDF c v s) sel = .ok out := by
  by_cases hsel : "Bollinger Bands" ∈ sel
  · obtain ⟨p, hp⟩ := ilocQ_ok c 1 one_pos h1
    obtain ⟨u, hu⟩ := ilocO_ok ((mkDF c v s).bbUpper) 1 one_pos (by simp [hs]; omega)
    obtain ⟨l, hl⟩ := ilocO_ok ((mkDF c v s).bbLower) 1 one_pos (by simp [hs]; omega)
    exact ⟨_, by simp only [bbVotes, if_pos hsel, mkDF_close, hp, hu, hl, exceptBind_ok]; rfl⟩
  · exact ⟨(0, 0, 0), by simp [bbVotes, hsel]⟩

/-- The MACD consolidator block never raises on a nonempty pipeline
DataFrame: with a single bar, `MACD` and `MACD_signal` coincide (both are
the seed of their EMAs), so neither crossover branch reads bar -2. -/
theorem macdVotes_ok (c v : List ℚ) (s : List (Option ℚ)) (sel : List String)
    (h1 : 1 ≤ c.length) : ∃ out, macdVotes (mkDF c v s) sel = .ok out := by
  by_cases hsel : "MACD" ∈ sel
  · rcases c with _ | ⟨a, c'⟩
    · simp at h1
    rcases c' with _ | ⟨b, c''⟩
    · refine ⟨(0, 0, 1), ?_⟩
      simp [macdVotes, hsel, macdCol, macdSignalCol, macdHistCol, emaCol, ewmRec,
        ilocO, cGT, cLT]
    · have hm : 2 ≤ ((macdCol (a :: b :: c'')).map some).length := by
        simp [macdCol_length]
      have hsg : 2 ≤ ((macdSignalCol (a :: b :: c'')).map some).length := by
        simp [macdSignalCol_length]
      have hhi : 2 ≤ ((macdHistCol (a :: b :: c'')).map some).length := by
        simp [macdHistCol_length]
      obtain ⟨m1, hm1⟩ := ilocO_ok ((macdCol (a :: b :: c'')).map some) 1 one_pos
        (le_trans one_le_two hm)
      obtain ⟨s1, hs1⟩ := ilocO_ok ((macdSignalCol (a :: b :: c'')).map some) 1 one_pos
        (le_trans one_le_two hsg)
      obtain ⟨hh1v, hh1⟩ := ilocO_ok ((macdHistCol (a :: b :: c'')).map some) 1 one_pos
        (le_trans one_le_two hhi)
      obtain ⟨m2, hm2⟩ := ilocO_ok ((macdCol (a :: b :: c'')).map some) 2 (by norm_num) hm
      obtain ⟨s2, hs2⟩ := ilocO_ok ((macdSignalCol (a :: b :: c'')).map some) 2 (by norm_num) hsg
      by_cases hgt : cGT m1 s1 = true
      · by_cases hle : cLE m2 s2 = true
        · exact ⟨(1, 0, 0), by simp [macdVotes, hsel, hm1, hs1, hh1, hm2, hs2, hgt, hle]⟩
        · exact ⟨(1 / 2, 0, 0), by simp [macdVotes, hsel, hm1, hs1, hh1, hm2, hs2, hgt, hle]⟩
      · by_cases hlt : cLT m1 s1 = true
        · by_cases hge : cGE m2 s2 = true
          · exact ⟨(0, 1, 0), by simp [macdVotes, hsel, hm1, hs1, hh1, hm2, hs2, hgt, hlt, hge]⟩
          · exact ⟨(0, 1 / 2, 0), by simp [macdVotes, hsel, hm1, hs1, hh1, hm2, hs2, hgt, hlt, hge]⟩
        · exact ⟨(0, 0, 1), by simp [macdVotes, hsel, hm1, hs1, hh1, hgt, hlt]⟩
  · exact ⟨(0, 0, 0), by simp [macdVotes, hsel]⟩

/-- The EMA consolidator block never raises on a nonempty pipeline
DataFrame: with a single bar, `EMA_20` and `EMA_50` both equal the seed
close, so neither crossover branch reads bar -2. -/
theorem emaVotes_ok (c v : List ℚ) (s : List (Option ℚ)) (sel : List String)
    (h1 : 1 ≤ c.length) : ∃ out, emaVotes (mkDF c v s) sel = .ok out := by
  by_cases hsel : "EMA" ∈ sel
  · rcases c with _ | ⟨a, c'⟩
    · simp at h1
    rcases c' with _ | ⟨b, c''⟩
    · refine ⟨(0, 0, 1 / 2), ?_⟩
      simp [emaVotes, hsel, emaCol, ewmRec, ilocO, cGT, cLT]
    · have he : 2 ≤ ((emaCol 20 (a :: b :: c'')).map some).length := by
        simp [emaCol_length]
      have hf : 2 ≤ ((emaCol 50 (a :: b :: c'')).map some).length := by
        simp [emaCol_length]
      obtain ⟨e1, he1⟩ := ilocO_ok ((emaCol 20 (a :: b :: c'')).map some) 1 one_pos
        (le_trans one_le_two he)
      obtain ⟨f1, hf1⟩ := ilocO_ok ((emaCol 50 (a :: b :: c'')).map some) 1 one_pos
        (le_trans one_le_two hf)
      obtain ⟨e2, he2⟩ := ilocO_ok ((emaCol 20 (a :: b :: c'')).map some) 2 (by norm_num) he
      obtain ⟨f2, hf2⟩ := ilocO_ok ((emaCol 50 (a :: b :: c'')).map some) 2 (by norm_num) hf
      by_cases hgt : cGT e1 f1 = true
      · by_cases hle : cLE e2 f2 = true
        · exact ⟨(1, 0, 0), by simp [emaVotes, hsel, he1, hf1, he2, hf2, hgt, hle]⟩
        · exact ⟨(1 / 2, 0, 0), by simp [emaVotes, hsel, he1, hf1, he2, hf2, hgt, hle]⟩
      · by_cases hlt : cLT e1 f1 = true
        · by_cases hge : cGE e2 f2 = true
          · exact ⟨(0, 1, 0), by simp [emaVotes, hsel, he1, hf1, he2, hf2, hgt, hlt, hge]⟩
          · exact ⟨(0, 1 / 2, 0), by simp [emaVotes, hsel, he1, hf1, he2, hf2, hgt, hlt, hge]⟩
        · exact ⟨(0, 0, 1 / 2), by simp [emaVotes, hsel, he1, hf1, hgt, hlt]⟩
  · exact ⟨(0, 0, 0), by simp [emaVotes, hsel]⟩

/-- The SMA consolidator block never raises on a nonempty pipeline
DataFrame: both `iloc[-20]` reads are guarded by a strict SMA comparison
that forces `SMA_200` (hence 200 ≥ 20 bars) defined. -/
theorem smaVotes_ok (c v : List ℚ) (s : List (Option ℚ)) (sel : List String)
    (h1 : 1 ≤ c.length) : ∃ out, smaVotes (mkDF c v s) sel = .ok out := by
  by_cases hsel : "SMA" ∈ sel
  · have h50 := ilocO_smaCol_last 50 c h1
    have h200 := ilocO_smaCol_last 200 c h1
    obtain ⟨p, hp⟩ := ilocQ_ok c 1 one_pos h1
    by_cases hgt : cGT (rollMeanAt c 50 (c.length - 1)) (rollMeanAt c 200 (c.length - 1)) = true
    · rcases cGT_eq_true _ _ hgt with ⟨x, y, _, hy, _⟩
      have h20 : 20 ≤ c.length := sma200_guard c y h1 hy
      obtain ⟨a, ha⟩ := ilocO_ok (smaCol 50 c) 20 (by norm_num)
        (by rw [smaCol_length]; exact h20)
      obtain ⟨b, hb⟩ := ilocO_ok (smaCol 200 c) 20 (by norm_num)
        (by rw [smaCol_length]; exact h20)
      by_cases hle : cLE a b = true
      · exact ⟨(2, 0, 0), by simp [smaVotes, hsel, hp, h50, h200, ha, hb, hgt, hle]⟩
      · exact ⟨(1 / 2, 0, 0), by simp [smaVotes, hsel, hp, h50, h200, ha, hb, hgt, hle]⟩
    · by_cases hlt : cLT (rollMeanAt c 50 (c.length - 1)) (rollMeanAt c 200 (c.length - 1)) = true
      · rcases cLT_eq_true _ _ hlt with ⟨x, y, _, hy, _⟩
        have h20 : 20 ≤ c.length := sma200_guard c y h1 hy
        obtain ⟨a, ha⟩ := ilocO_ok (smaCol 50 c) 20 (by norm_num)
          (by rw [smaCol_length]; exact h20)
        obtain ⟨b, hb⟩ := ilocO_ok (smaCol 200 c) 20 (by norm_num)
          (by rw [smaCol_length]; exact h20)
        by_cases hge : cGE a b = true
        · exact ⟨(0, 2, 0), by simp [smaVotes, hsel, hp, h50, h200, ha, hb, hgt, hlt, hge]⟩
        · exact ⟨(0, 1 / 2, 0), by simp [smaVotes, hsel, hp, h50, h200, ha, hb, hgt, hlt, hge]⟩
      · exact ⟨(0, 0, 1 / 2), by simp [smaVotes, hsel, hp, h50, h200, hgt, hlt]⟩
  · exact ⟨(0, 0, 0), by simp [smaVotes, hsel]⟩

/-- NaN on the right defeats the NaN-aware `>`. -/
theorem cGT_none_right (a : Option ℚ) : cGT a none = false := by cases a <;> rfl

/-- NaN on the right defeats the NaN-aware `<`. -/
theorem cLT_none_right (a : Option ℚ) : cLT a none = false := by cases a <;> rfl

/-- C3 (amended): on the pipeline DataFrame the scorer never raises once
the series has at least 2 bars, and the consolidator never raises on any
nonempty series; an indicator block whose series is not selected
contributes 0 points and (0,0,0) votes; a block whose series is undefined
(NaN) at the bars it reads contributes 0 points and 0 buy/sell votes (a
neutral vote at most).  (With exactly 1 bar and MACD or Bollinger Bands
selected the scorer DOES raise IndexError — see the counterexample.) -/
theorem insufficient_history_handling :
    (∀ (c vol : List ℚ) (stdCol : List (Option ℚ)) (sel : List String),
        2 ≤ c.length → stdCol.length = c.length →
        ∃ r, calculate_crypto_score (mkDF c vol stdCol) sel = .ok r) ∧
    (∀ (c vol : List ℚ) (stdCol : List (Option ℚ)) (sel : List String),
        1 ≤ c.length → stdCol.length = c.length →
        ∃ out, analyze_crypto (mkDF c vol stdCol) sel = .ok out) ∧
    (∀ (df : DF) (sel : List String), "RSI" ∉ sel →
        rsiPoints df sel = .ok 0 ∧ rsiVotes df sel = .ok (0, 0, 0)) ∧
    (∀ (df : DF) (sel : List String), "MACD" ∉ sel →
        macdPoints df sel = .ok 0 ∧ macdVotes df sel = .ok (0, 0, 0)) ∧
    (∀ (df : DF) (sel : List String), "Bollinger Bands" ∉ sel →
        bbPoints df sel = .ok 0 ∧ bbVotes df sel = .ok (0, 0, 0)) ∧
    (∀ (df : DF) (sel : List String), "EMA" ∉ sel →
        emaPoints df sel = .ok 0 ∧ emaVotes df sel = .ok (0, 0, 0)) ∧
    (∀ (df : DF) (sel : List String), "SMA" ∉ sel →
        smaPoints df sel = .ok 0 ∧ smaVotes df sel = .ok (0, 0, 0)) ∧
    (∀ (df : DF) (sel : List String), ilocO df.rsi 1 = .ok none →
        rsiPoints df sel = .ok 0 ∧
        (rsiVotes df sel = .ok (0, 0, 1) ∨ rsiVotes df sel = .ok (0, 0, 0))) ∧
    (∀ (df : DF) (sel : List String) (c1 c2 : ℚ),
        ilocQ df.close 1 = .ok c1 → ilocQ df.close 2 = .ok c2 →
        ilocO df.bbLower 1 = .ok none → ilocO df.bbLower 2 = .ok none →
        ilocO df.bbUpper 1 = .ok none →
        bbPoints df sel = .ok 0 ∧
        (bbVotes df sel = .ok (0, 0, 1) ∨ bbVotes df sel = .ok (0, 0, 0))) ∧
    (∀ (df : DF) (sel : List String) (p : ℚ) (s50 : Option ℚ),
        ilocQ df.close 1 = .ok p → ilocO df.sma50 1 = .ok s50 →
        ilocO df.sma200 1 = .ok none →
        smaPoints df sel = .ok 0 ∧
        (smaVotes df sel = .ok (0, 0, 1 / 2) ∨ smaVotes df sel = .ok (0, 0, 0))) := by
  refine ⟨?_, ?_, ?_, ?_, ?_, ?_, ?_, ?_, ?_, ?_⟩
  · intro c vol stdCol sel h2 hstd
    have h1 : 1 ≤ c.length := by omega
    obtain ⟨r1, e1⟩ := momentumPoints_ok (mkDF c vol stdCol) (by simpa using h1)
    obtain ⟨r2, e2⟩ := rsiPoints_ok (mkDF c vol stdCol) sel (by simp [rsiCol_length]; omega)
    obtain ⟨r3, e3⟩ := macdPoints_ok (mkDF c vol stdCol) sel
      (by simp [macdCol_length]; omega) (by simp [macdSignalCol_length]; omega)
      (by simp [macdHistCol_length]; omega)
    obtain ⟨r4, e4⟩ := bbPoints_ok (mkDF c vol stdCol) sel (by simpa using h2)
      (by simp [hstd]; omega)
    obtain ⟨r5, e5⟩ := emaPoints_ok (mkDF c vol stdCol) sel
      (by simp [emaCol_length]; omega) (by simp [emaCol_length]; omega)
    obtain ⟨r6, e6⟩ := smaPoints_ok c vol stdCol sel h1
    exact ⟨_, by simp [calculate_crypto_score, e1, e2, e3, e4, e5, e6]; rfl⟩
  · intro c vol stdCol sel h1 hstd
    obtain ⟨v1, e1⟩ := rsiVotes_ok (mkDF c vol stdCol) sel (by simp [rsiCol_length]; omega)
    obtain ⟨v2, e2⟩ := macdVotes_ok c vol stdCol sel h1
    obtain ⟨v3, e3⟩ := bbVotes_ok c vol stdCol sel h1 hstd
    obtain ⟨v4, e4⟩ := smaVotes_ok c vol stdCol sel h1
    obtain ⟨v5, e5⟩ := emaVotes_ok c vol stdCol sel h1
    exact ⟨_, by simp [analyze_crypto, voteTotals, e1, e2, e3, e4, e5]; rfl⟩
  · intro df sel h
    exact ⟨by simp [rsiPoints, h], by simp [rsiVotes, h]⟩
  · intro df sel h
    exact ⟨by simp [macdPoints, h], by simp [macdVotes, h]⟩
  · intro df sel h
    exact ⟨by simp [bbPoints, h], by simp [bbVotes, h]⟩
  · intro df sel h
    exact ⟨by simp [emaPoints, h], by simp [emaVotes, h]⟩
  · intro df sel h
    exact ⟨by simp [smaPoints, h], by simp [smaVotes, h]⟩
  · intro df sel h
    by_cases hsel : "RSI" ∈ sel
    · exact ⟨by simp [rsiPoints, hsel, h, cLE, cLT],
        Or.inl (by simp [rsiVotes, hsel, h, cLT, cGT])⟩
    · exact ⟨by simp [rsiPoints, hsel], Or.inr (by simp [rsiVotes, hsel])⟩
  · intro df sel c1 c2 hc1 hc2 hl1 hl2 hu1
    by_cases hsel : "Bollinger Bands" ∈ sel
    · constructor
      · by_cases hgt : c1 > c2
        · simp [bbPoints, hsel, hc1, hc2, hl1, hl2, hgt, scaleCell, cLT_none_right]
        · simp [bbPoints, hsel, hc1, hc2, hl1, hgt, scaleCell, cLT_none_right]
      · exact Or.inl (by simp [bbVotes, hsel, hc1, hl1, hu1, scaleCell,
          cLT_none_right, cGT_none_right])
    · exact ⟨by simp [bbPoints, hsel], Or.inr (by simp [bbVotes, hsel])⟩
  · intro df sel p s50 hp h50 h200
    by_cases hsel : "SMA" ∈ sel
    · constructor
      · simp [smaPoints, hsel, hp, h50, h200, cGT_none_right]
      · exact Or.inl (by simp [smaVotes, hsel, hp, h50, h200, cGT_none_right, cLT_none_right])
    · exact ⟨by simp [smaPoints, hsel], Or.inr (by simp [smaVotes, hsel])⟩

/-- Witness for C3's amended theorem: the scorer succeeds on a 2-bar
series with MACD selected, and the consolidator succeeds even on a 1-bar
series with every indicator selected. -/
theorem insufficient_history_handling_witness :
    (∃ r, calculate_crypto_score (mkDF [1, 2] [1, 1] [none, none]) ["RSI", "MACD"] = .ok r) ∧
    (∃ out, analyze_crypto (mkDF [100] [1000] [none])
      ["RSI", "MACD", "Bollinger Bands", "EMA", "SMA"] = .ok out) :=
  ⟨insufficient_history_handling.1 [1, 2] [1, 1] [none, none] ["RSI", "MACD"]
      (by decide) (by decide),
   insufficient_history_handling.2.1 [100] [1000] [none]
      ["RSI", "MACD", "Bollinger Bands", "EMA", "SMA"] (by decide) (by decide)⟩

/-- Counterexample for C3 as stated: on a ONE-bar series the scorer raises
IndexError when MACD is selected (`MACD_hist.iloc[-2]`, line 77) or when
Bollinger Bands is selected (`close.iloc[-2]`, line 88), although the
consolidator handles the same series without error. -/
theorem insufficient_history_counterexample :
    calculate_crypto_score (mkDF [100] [1000] [none]) ["MACD"] = .error "IndexError" ∧
    calculate_crypto_score (mkDF [100] [1000] [none]) ["Bollinger Bands"] =
      .error "IndexError" ∧
    analyze_crypto (mkDF [100] [1000] [none])
      ["RSI", "MACD", "Bollinger Bands", "EMA", "SMA"] = .ok (Sig.neutral, none) :=
  ⟨by decide, by decide, by decide⟩
